import Mathlib

/-!
SliceWidget: windowing, coordinate mapping and the crosshair interaction handlers

A shallow embedding of `src/sliceWidget.cpp`.

Conventions of the embedding

* C `int` values are `Int` (no overflow is modelled).
* C `float`/`double` values are rationals; an integer division of two `int`s is `Int.tdiv`,
  a conversion of a floating value to an integer type discards the fractional part.
* In the angle computations of `mouseMoveEvent` (`angle_diff_h`, `angle_diff_v` and the
  rotation argument) the floating arithmetic is rounded as the source stores it: a `float`
  difference and every store to a `float` variable round to binary32, an expression with the
  `double` constant `PI` rounds to binary64 first, both to nearest with ties to even
  (`toFloat`, `toDouble`). Every other floating operation is taken exactly.
* In `apply_windowing` a byte whose C value is undefined (the quotient by a zero
  `window_width`, or a value that does not fit `unsigned char`) is `none`. Elsewhere a
  floating quotient by zero is not modelled: the theorems that depend on a quotient by
  `slice_size` or `pixel_num` assume these are positive.
* The C math library and the `DataCube` collaborator are not part of `sliceWidget.cpp`; they
  are parameters of the handlers.
* Every call on the collaborator, every emitted signal and every `setPixmap` is appended to a
  trace kept in the widget state.
-/

namespace SliceWidget

/-! ## Numeric conversions -/

/-- The preprocessor constant `PI` of `sliceWidget.cpp` (`#define PI 3.141592`). -/
def PI : ℚ := 3141592 / 1000000

/-- Rounding of a rational to the nearest integer, a tie going to the even one. -/
def roundHalfEven (q : ℚ) : Int :=
  if q - ⌊q⌋ < 1 / 2 then ⌊q⌋
  else if q - ⌊q⌋ > 1 / 2 then ⌊q⌋ + 1
  else if ⌊q⌋ % 2 = 0 then ⌊q⌋ else ⌊q⌋ + 1

/-- Rounding to nearest, ties to even, into a binary floating format with `p` significant
bits whose smallest subnormal is `2 ^ emin`: the value is rounded to a multiple of the unit
in the last place of its binade. Overflow to infinity is not modelled (the values rounded in
this file are below 16). -/
def roundBinary (p : Nat) (emin : Int) (x : ℚ) : ℚ :=
  if x = 0 then 0
  else
    (roundHalfEven (x / (2 : ℚ) ^ max (Int.log 2 |x| - ((p : Int) - 1)) emin) : ℚ)
      * (2 : ℚ) ^ max (Int.log 2 |x| - ((p : Int) - 1)) emin

/-- The value a C `float` (IEEE 754 binary32) holds after a store of `x`. -/
def toFloat (x : ℚ) : ℚ := roundBinary 24 (-149) x

/-- The value of a C `double` (IEEE 754 binary64) operation whose exact result is `x`. -/
def toDouble (x : ℚ) : ℚ := roundBinary 53 (-1074) x

/-- The `double` value of the constant `PI` (the literal `3.141592` as the compiler reads
it). -/
def PI_double : ℚ := toDouble PI

/-- The `float` nearest to `PI`, the value a `float` variable holds after `= PI`; it is
greater than `PI`. -/
def floatPI : ℚ := 1647099 / 524288

/-- Conversion of a floating value to `int`: the fractional part is discarded. -/
def truncToInt (q : ℚ) : Int := if 0 ≤ q then ⌊q⌋ else ⌈q⌉

/-- The narrowing conversion `(unsigned char)temp`: the fractional part is discarded; the
result is defined only when the truncated value fits in a byte. -/
def toUChar (q : ℚ) : Option Nat :=
  if 0 ≤ truncToInt q ∧ truncToInt q ≤ 255 then some (truncToInt q).toNat else none

/-! ## apply_windowing -/

/-- Body of the loop of `SliceWidget::apply_windowing` for one raw sample `v`
(`slice_data[i]`): the byte stored in `windowed_slice[i]`. -/
def window_sample (rescale_slope rescale_intercept pixel_min : ℚ)
    (window_level window_width : Int) (v : Int) : Option Nat :=
  let temp : ℚ := (v : ℚ)
  if temp < pixel_min then some 255
  else
    let temp := rescale_slope * temp + rescale_intercept
    let temp := temp - ((window_level - Int.tdiv window_width 2 : Int) : ℚ)
    let temp := if temp < 0 then 0 else if temp > window_width then (window_width : ℚ) else temp
    if window_width = 0 then none else toUChar (temp * 255 / window_width)

/-- The windowed value before the narrowing cast, for a sample that is not below
`pixel_min`: the calibrated value shifted by the lower window edge (the half width taken
by integer division) and clamped to `[0, window_width]`. -/
def window_clamped (rescale_slope rescale_intercept : ℚ)
    (window_level window_width : Int) (v : Int) : ℚ :=
  max 0 (min (rescale_slope * v + rescale_intercept
    - ((window_level - window_width / 2 : Int) : ℚ)) window_width)

/-! ## Coordinate mapping -/

/-- The scaling of a volume coordinate to the screen in `set_pixmap`
(`line_x_scaled = line_x * slice_size / pixel_num`): an `int` product divided by the
floating `pixel_num`, stored in an `int`. -/
def line_scaled (slice_size : Int) (pixel_num : ℚ) (line : Int) : Int :=
  truncToInt (((line * slice_size : Int) : ℚ) / pixel_num)

/-- The scaling of a screen coordinate to the volume in `emit_coord_sig`
(`int m_x = mouse_x * pixel_num / slice_size`). -/
def coord_scaled (slice_size : Int) (pixel_num : ℚ) (mouse : Int) : Int :=
  truncToInt ((mouse : ℚ) * pixel_num / (slice_size : ℚ))

/-! ## Collaborators -/

/-- The functions of the C math library that `sliceWidget.cpp` calls (`fabs` and `pow(·, 2)`
are taken exactly and are not listed). -/
structure Libm where
  /-- The call `atan2(y, x)`. -/
  atan2 : ℚ → ℚ → ℚ
  /-- The call `sqrt(x)`. -/
  sqrt : ℚ → ℚ
  /-- The call `sin(x)`. -/
  sin : ℚ → ℚ
  /-- The call `cos(x)`. -/
  cos : ℚ → ℚ

/-- Modelled from the spec: the `DataCube` volume collaborator (`data_cube.h` and its
implementation are not among the sources). Section 6 of the specification lists its contract;
the argument lists are those of the calls in `sliceWidget.cpp`. `D` is the collaborator's own
state; a navigation command returns its `int` result and the collaborator's next state. -/
structure DataCube (D : Type) where
  /-- Returns `(pixel_num, rescale_slope, rescale_intercept, pixel_min, pixel_max)`. -/
  get_pixel_info : D → ℚ × ℚ × ℚ × ℚ × ℚ
  /-- The raw samples written to the slice buffer for a slice type. -/
  get_slice : D → Int → List Int
  /-- Returns `(line_x, line_y, line_angle_rad)` for a slice type. -/
  get_line_info : D → Int → Int × Int × ℚ
  /-- Returns `(point_x, point_y, point_z, pixel_v)` for a slice type and a sample position. -/
  get_coord : D → Int → Int → Int → Int × Int × Int × Int
  /-- The command `move_center(slice_type, dx, dy)`. -/
  move_center : D → Int → ℚ → ℚ → Int × D
  /-- The command `move_slice(slice_type, axis, d)`. -/
  move_slice : D → Int → Int → ℚ → Int × D
  /-- The command `zoom_slice(slice_type, dy)`. -/
  zoom_slice : D → Int → Int → Int × D
  /-- The command `rotate_slice(slice_type, angle)`. -/
  rotate_slice : D → Int → ℚ → Int × D
  /-- The command `slice_panning(slice_type, dx, dy)`. -/
  slice_panning : D → Int → ℚ → ℚ → Int × D
  /-- The command `toggle_border_line(slice_type)`. -/
  toggle_border_line : D → Int → D

/-- What the widget does that is visible outside it: calls on the collaborator, emitted
signals, and the final `setPixmap` of a redraw. -/
inductive Action where
  | get_slice (slice_type : Int)
  | get_line_info (slice_type : Int)
  | get_coord (slice_type m_x m_y : Int)
  | move_center (slice_type : Int) (dx dy : ℚ)
  | move_slice (slice_type axis : Int) (d : ℚ)
  | zoom_slice (slice_type dy : Int)
  | rotate_slice (slice_type : Int) (angle : ℚ)
  | slice_panning (slice_type : Int) (dx dy : ℚ)
  | toggle_border_line (slice_type : Int)
  /-- The signal `coord_info_sig`; `none` is the empty message, otherwise the payload is
  `(point_x, point_y, point_z, pixel_v)`. -/
  | coord_info_sig (msg : Option (Int × Int × Int × Int))
  | windowing_info_sig (wl ww : Int)
  | line_moved_sig (which : Int)
  | zoom_panning_sig
  | windowing_changed_sig (wl ww : Int)
  | setPixmap
  deriving DecidableEq

/-- Whether an action is one of the five signals of the widget. -/
def Action.isSignal : Action → Bool
  | .coord_info_sig _ => true
  | .windowing_info_sig _ _ => true
  | .line_moved_sig _ => true
  | .zoom_panning_sig => true
  | .windowing_changed_sig _ _ => true
  | _ => false

/-! ## Widget state -/

/-- The data members of `SliceWidget` (`sliceWidget.h`), without the pixmaps, and the trace of
actions performed so far. -/
structure Widget (D : Type) where
  data_cube : D
  slice_data : List Int
  windowed_slice : List (Option Nat)
  slice_type : Int
  is_valid : Int
  slice_size : Int
  pixel_num : ℚ
  rescale_slope : ℚ
  rescale_intercept : ℚ
  pixel_min : ℚ
  pixel_max : ℚ
  is_line_visible : Int
  is_line_mouseover_h : Int
  is_line_mouseover_v : Int
  line_clicked_v : Int
  line_clicked_h : Int
  mouse_last_x : Int
  mouse_last_y : Int
  line_x : Int
  line_y : Int
  line_x_scaled : Int
  line_y_scaled : Int
  line_angle_rad : ℚ
  mouse_last_a : ℚ
  window_level : Int
  window_width : Int
  window_changed : Int
  zoom_changed : Int
  trace : List Action

/-- The state of `event->buttons()` as far as `mouseMoveEvent` tests it. -/
structure Buttons where
  left : Bool
  right : Bool
  mid : Bool

variable {D : Type}

/-- Appends one action to the trace. -/
def Widget.log (w : Widget D) (a : Action) : Widget D :=
  { w with trace := w.trace ++ [a] }

/-! ## Rendering and windowing -/

/-- Member `SliceWidget::set_pixmap`. The painting itself is not part of the state (the pens
it uses are `pen_v` and `pen_h` below); what remains is the re-read of the crosshair geometry
when the line is visible and the final `setPixmap`. -/
def set_pixmap (ops : DataCube D) (w : Widget D) : Widget D :=
  if w.is_valid = 0 then w.log Action.setPixmap
  else if w.is_line_visible = 1 then
    let info := ops.get_line_info w.data_cube w.slice_type
    Widget.log
      { w.log (Action.get_line_info w.slice_type) with
        line_x := info.1
        line_y := info.2.1
        line_angle_rad := info.2.2
        line_x_scaled := line_scaled w.slice_size w.pixel_num info.1
        line_y_scaled := line_scaled w.slice_size w.pixel_num info.2.1 }
      Action.setPixmap
  else w.log Action.setPixmap

/-- The three pen colours used by `set_pixmap` (`Qt::red`, `Qt::green`, `Qt::blue`). -/
inductive PenColor where
  | red
  | green
  | blue
  deriving DecidableEq

/-- The pen `set_pixmap` sets before drawing the arm at `line_angle_deg + 90` and
`line_angle_deg + 270` (the arm thickened by `is_line_mouseover_v` and `line_clicked_v`):
its colour and its width. -/
def pen_v (w : Widget D) : PenColor × Int :=
  if w.slice_type = 0 then
    if w.is_line_mouseover_v = 1 ∨ w.line_clicked_v = 1 then (PenColor.green, 5)
    else (PenColor.green, 2)
  else if w.slice_type = 1 then
    if w.is_line_mouseover_v = 1 ∨ w.line_clicked_v = 1 then (PenColor.red, 5)
    else (PenColor.red, 2)
  else
    if w.is_line_mouseover_v = 1 ∨ w.line_clicked_v = 1 then (PenColor.green, 5)
    else (PenColor.green, 2)

/-- The pen `set_pixmap` sets before drawing the arm at `line_angle_deg` and
`line_angle_deg + 180` (the arm thickened by `is_line_mouseover_h` and `line_clicked_h`):
its colour and its width. -/
def pen_h (w : Widget D) : PenColor × Int :=
  if w.slice_type = 0 then
    if w.is_line_mouseover_h = 1 ∨ w.line_clicked_h = 1 then (PenColor.blue, 5)
    else (PenColor.blue, 2)
  else if w.slice_type = 1 then
    if w.is_line_mouseover_h = 1 ∨ w.line_clicked_h = 1 then (PenColor.blue, 5)
    else (PenColor.blue, 2)
  else
    if w.is_line_mouseover_h = 1 ∨ w.line_clicked_h = 1 then (PenColor.red, 5)
    else (PenColor.red, 2)

/-- Member `SliceWidget::apply_windowing`. The loop bound `pixel_num * pixel_num * 7 / 4` is the
length of both buffers, so the loop is a map over the slice buffer. -/
def apply_windowing (ops : DataCube D) (w : Widget D) : Widget D :=
  set_pixmap ops
    (Widget.log
      { w with
        windowed_slice := w.slice_data.map
          (window_sample w.rescale_slope w.rescale_intercept w.pixel_min
            w.window_level w.window_width) }
      (Action.windowing_info_sig w.window_level w.window_width))

/-- Member `SliceWidget::get_slice`. -/
def get_slice (ops : DataCube D) (w : Widget D) : Widget D :=
  apply_windowing ops
    { w.log (Action.get_slice w.slice_type) with
      slice_data := ops.get_slice w.data_cube w.slice_type }

/-- Member `SliceWidget::set_data`. -/
def set_data (ops : DataCube D) (w : Widget D) (d : D) : Widget D :=
  let info := ops.get_pixel_info d
  get_slice ops
    { w with
      is_valid := 1
      data_cube := d
      pixel_num := info.1
      rescale_slope := info.2.1
      rescale_intercept := info.2.2.1
      pixel_min := info.2.2.2.1
      pixel_max := info.2.2.2.2
      window_level := 50
      window_width := 350
      window_changed := 0 }

/-- Member `SliceWidget::init_windowing`. -/
def init_windowing (ops : DataCube D) (w : Widget D) (apply : Int) : Widget D :=
  let w1 := { w with window_level := 50, window_width := 350 }
  if apply = 1 then apply_windowing ops w1 else w1

/-- Member `SliceWidget::set_windowing`. -/
def set_windowing (ops : DataCube D) (w : Widget D) (wl ww : Int) : Widget D :=
  apply_windowing ops { w with window_level := wl, window_width := ww }

/-- Member `SliceWidget::toggle_slice_line`. -/
def toggle_slice_line (ops : DataCube D) (w : Widget D) : Widget D :=
  set_pixmap ops { w with is_line_visible := Int.tmod (w.is_line_visible + 1) 2 }

/-- Member `SliceWidget::toggle_border_line`. -/
def toggle_border_line (ops : DataCube D) (w : Widget D) : Widget D :=
  get_slice ops
    { w.log (Action.toggle_border_line w.slice_type) with
      data_cube := ops.toggle_border_line w.data_cube w.slice_type }

/-- Member `SliceWidget::emit_coord_sig`. -/
def emit_coord_sig (ops : DataCube D) (w : Widget D) (is_inside mouse_x mouse_y : Int) :
    Widget D :=
  if is_inside = 0 then w.log (Action.coord_info_sig none)
  else
    let m_x := coord_scaled w.slice_size w.pixel_num mouse_x
    let m_y := coord_scaled w.slice_size w.pixel_num mouse_y
    let c := ops.get_coord w.data_cube w.slice_type m_x m_y
    let pixel_v := truncToInt (w.rescale_slope * (c.2.2.2 : ℚ) + w.rescale_intercept)
    (w.log (Action.get_coord w.slice_type m_x m_y)).log
      (Action.coord_info_sig (some (c.1, c.2.1, c.2.2.1, pixel_v)))

/-! ## Pointer angle -/

/-- Member `SliceWidget::get_mouse_angle`. -/
def get_mouse_angle (M : Libm) (w : Widget D) (mouse_x mouse_y : Int) : ℚ :=
  if mouse_x = w.line_x_scaled then
    if mouse_y ≥ w.line_y_scaled then PI / 2 else 3 * PI / 2
  else if mouse_y = w.line_x_scaled then
    if mouse_x ≥ w.line_x_scaled then 0 else PI
  else if mouse_x > w.line_x_scaled ∧ mouse_y > w.line_y_scaled then
    M.atan2 ((mouse_y - w.line_y_scaled : Int) : ℚ) ((mouse_x - w.line_x_scaled : Int) : ℚ)
  else if mouse_x < w.line_x_scaled ∧ mouse_y > w.line_y_scaled then
    M.atan2 ((w.line_x_scaled - mouse_x : Int) : ℚ) ((mouse_y - w.line_y_scaled : Int) : ℚ)
      + PI / 2
  else if mouse_x < w.line_x_scaled ∧ mouse_y < w.line_y_scaled then
    M.atan2 ((w.line_y_scaled - mouse_y : Int) : ℚ) ((w.line_x_scaled - mouse_x : Int) : ℚ)
      + PI
  else
    M.atan2 ((mouse_x - w.line_x_scaled : Int) : ℚ) ((w.line_y_scaled - mouse_y : Int) : ℚ)
      + 3 * PI / 2

/-! ## Event handlers -/

/-- Member `SliceWidget::leaveEvent`. -/
def leaveEvent (ops : DataCube D) (w : Widget D) : Widget D :=
  if w.is_valid = 0 then w
  else
    emit_coord_sig ops
      (set_pixmap ops
        { w with
          line_clicked_h := 0
          line_clicked_v := 0
          is_line_mouseover_h := 0
          is_line_mouseover_v := 0 })
      0 0 0

/-- Member `SliceWidget::mousePressEvent`, for an event at `(x, y)`. -/
def mousePressEvent (M : Libm) (w : Widget D) (x y : Int) : Widget D :=
  if w.is_valid = 0 then w
  else
    { w with
      mouse_last_x := x
      mouse_last_y := y
      mouse_last_a := get_mouse_angle M w x y
      line_clicked_h := w.is_line_mouseover_h
      line_clicked_v := w.is_line_mouseover_v }

/-- Member `SliceWidget::mouseReleaseEvent`. -/
def mouseReleaseEvent (w : Widget D) : Widget D :=
  if w.is_valid = 0 then w
  else
    let w1 := { w with line_clicked_h := 0, line_clicked_v := 0 }
    if w1.window_changed = 1 then
      { w1.log (Action.windowing_changed_sig w1.window_level w1.window_width) with
        window_changed := 0 }
    else w1

/-- Member `SliceWidget::mouseDoubleClickEvent`, for an event at `(x, y)`. -/
def mouseDoubleClickEvent (ops : DataCube D) (w : Widget D) (x y : Int) : Widget D :=
  if w.is_valid = 0 then w
  else
    let dx : ℚ := ((x - w.line_x_scaled : Int) : ℚ) * w.pixel_num / (w.slice_size : ℚ)
    let dy : ℚ := ((y - w.line_y_scaled : Int) : ℚ) * w.pixel_num / (w.slice_size : ℚ)
    let r := ops.move_center w.data_cube w.slice_type dx dy
    let w1 := { w.log (Action.move_center w.slice_type dx dy) with data_cube := r.2 }
    if r.1 = 1 then
      emit_coord_sig ops ((get_slice ops w1).log (Action.line_moved_sig 2)) 1 x y
    else w1

/-- Member `SliceWidget::wheelEvent`, for an event at `(x, y)` whose `angleDelta().y()` is
`wheel_delta`. -/
def wheelEvent (ops : DataCube D) (w : Widget D) (wheel_delta x y : Int) : Widget D :=
  if w.is_valid = 0 then w
  else
    let step : ℚ := if wheel_delta > 0 then 1 else -1
    let r := ops.move_slice w.data_cube w.slice_type w.slice_type step
    let w1 := { w.log (Action.move_slice w.slice_type w.slice_type step) with data_cube := r.2 }
    if r.1 = 0 then w1
    else emit_coord_sig ops ((get_slice ops w1).log (Action.line_moved_sig 3)) 1 x y

/-- The clamping of the pointer's x coordinate to the canvas at the head of
`mouseMoveEvent`. -/
def clamp_mouse_x (slice_size x : Int) : Int :=
  let mouse_x := if x < 0 then 0 else x
  if mouse_x ≥ Int.tdiv (slice_size * 7) 4 then Int.tdiv (slice_size * 7) 4 - 1 else mouse_x

/-- The clamping of the pointer's y coordinate to the canvas at the head of
`mouseMoveEvent`. -/
def clamp_mouse_y (slice_size y : Int) : Int :=
  let mouse_y := if y < 0 then 0 else y
  if mouse_y ≥ slice_size then slice_size - 1 else mouse_y

/-- The folded angle `angle_diff_h` of `mouseMoveEvent` (the "get angle diff" block), a
`float` variable: the `float` difference of the two angles and each assignment round to
binary32, and the right-hand sides with the `double` constant `PI` are `double` expressions
(`2 * PI` and `PI / 2` are exact in `double`). -/
def angle_diff_h (line_angle_rad mouse_angle_rad : ℚ) : ℚ :=
  let a := |toFloat (line_angle_rad - mouse_angle_rad)|
  let a := if a > PI_double then toFloat (toDouble (2 * PI_double - a)) else a
  if a > PI_double / 2 then toFloat (toDouble (PI_double - a)) else a

/-- The angle `angle_diff_v` of `mouseMoveEvent`, a `float` variable assigned the `double`
expression `PI / 2 - angle_diff_h`. -/
def angle_diff_v (line_angle_rad mouse_angle_rad : ℚ) : ℚ :=
  toFloat (toDouble (PI_double / 2 - angle_diff_h line_angle_rad mouse_angle_rad))

/-- The distance `r_mouse` of `mouseMoveEvent`. -/
def r_mouse (M : Libm) (w : Widget D) (mouse_x mouse_y : Int) : ℚ :=
  M.sqrt ((((w.line_x_scaled - mouse_x : Int) : ℚ)) ^ 2
    + (((w.line_y_scaled - mouse_y : Int) : ℚ)) ^ 2)

/-- The local flag `line_mouseover_h` of `mouseMoveEvent`. -/
def line_mouseover_h (M : Libm) (w : Widget D) (mouse_x mouse_y : Int) : Int :=
  if angle_diff_h w.line_angle_rad (get_mouse_angle M w mouse_x mouse_y)
      * r_mouse M w mouse_x mouse_y ≤ 4 then 1 else 0

/-- The local flag `line_mouseover_v` of `mouseMoveEvent`. -/
def line_mouseover_v (M : Libm) (w : Widget D) (mouse_x mouse_y : Int) : Int :=
  if angle_diff_v w.line_angle_rad (get_mouse_angle M w mouse_x mouse_y)
      * r_mouse M w mouse_x mouse_y ≤ 4 then 1 else 0

/-- The "if mouseover changed, change line thickness" block of `mouseMoveEvent`. -/
def move_hover (M : Libm) (ops : DataCube D) (w : Widget D) (mouse_x mouse_y : Int) :
    Widget D :=
  if line_mouseover_v M w mouse_x mouse_y ≠ w.is_line_mouseover_v
      ∨ line_mouseover_h M w mouse_x mouse_y ≠ w.is_line_mouseover_h then
    set_pixmap ops
      { w with
        is_line_mouseover_v := line_mouseover_v M w mouse_x mouse_y
        is_line_mouseover_h := line_mouseover_h M w mouse_x mouse_y }
  else w

/-- The axis argument of the `move_slice` call for a dragged vertical arm. -/
def axis_v (slice_type : Int) : Int :=
  if slice_type = 0 ∨ slice_type = 2 then 1 else 0

/-- The axis argument of the `move_slice` call for a dragged horizontal arm. -/
def axis_h (slice_type : Int) : Int :=
  if slice_type = 0 ∨ slice_type = 1 then 2 else 0

/-- The displacement `d` passed to `move_slice` for a dragged vertical arm. -/
def drag_d_v (M : Libm) (w : Widget D) (mouse_x mouse_y : Int) : ℚ :=
  let dx : ℚ := ((mouse_x - w.mouse_last_x : Int) : ℚ) * w.pixel_num / (w.slice_size : ℚ)
  let dy : ℚ := ((mouse_y - w.mouse_last_y : Int) : ℚ) * w.pixel_num / (w.slice_size : ℚ)
  dx * M.sin (w.line_angle_rad + PI / 2) - dy * M.cos (w.line_angle_rad + PI / 2)

/-- The displacement `d` passed to `move_slice` for a dragged horizontal arm. -/
def drag_d_h (M : Libm) (w : Widget D) (mouse_x mouse_y : Int) : ℚ :=
  let dx : ℚ := ((mouse_x - w.mouse_last_x : Int) : ℚ) * w.pixel_num / (w.slice_size : ℚ)
  let dy : ℚ := ((mouse_y - w.mouse_last_y : Int) : ℚ) * w.pixel_num / (w.slice_size : ℚ)
  dy * M.cos w.line_angle_rad - dx * M.sin w.line_angle_rad

/-- The `if (line_clicked_v == 1)` block of the line drag: the state after it and
`moved_v`. -/
def drag_v (M : Libm) (ops : DataCube D) (w : Widget D) (mouse_x mouse_y : Int) :
    Widget D × Int :=
  if w.line_clicked_v = 1 then
    let d := drag_d_v M w mouse_x mouse_y
    let r := ops.move_slice w.data_cube w.slice_type (axis_v w.slice_type) d
    ({ w.log (Action.move_slice w.slice_type (axis_v w.slice_type) d) with data_cube := r.2 },
      r.1)
  else (w, 0)

/-- The `if (line_clicked_h == 1)` block of the line drag: the state after it and
`moved_h`. -/
def drag_h (M : Libm) (ops : DataCube D) (w : Widget D) (mouse_x mouse_y : Int) :
    Widget D × Int :=
  if w.line_clicked_h = 1 then
    let d := drag_d_h M w mouse_x mouse_y
    let r := ops.move_slice w.data_cube w.slice_type (axis_h w.slice_type) d
    ({ w.log (Action.move_slice w.slice_type (axis_h w.slice_type) d) with data_cube := r.2 },
      r.1)
  else (w, 0)

/-- The left-button branch "when clicked line" of `mouseMoveEvent`. -/
def move_drag_line (M : Libm) (ops : DataCube D) (w : Widget D) (mouse_x mouse_y : Int) :
    Widget D :=
  let rv := drag_v M ops w mouse_x mouse_y
  let rh := drag_h M ops rv.1 mouse_x mouse_y
  let moved_v := rv.2
  let moved_h := rh.2
  let w2 :=
    if moved_v = 1 ∧ moved_h = 1 then rh.1.log (Action.line_moved_sig 2)
    else if moved_v = 1 then rh.1.log (Action.line_moved_sig 0)
    else if moved_h = 1 then rh.1.log (Action.line_moved_sig 1)
    else rh.1
  if moved_h = 1 ∨ moved_v = 1 then
    set_pixmap ops { w2 with mouse_last_x := mouse_x, mouse_last_y := mouse_y }
  else w2

/-- The left-button branch "when clicked screen, not line = zooming" of `mouseMoveEvent`. -/
def move_zoom (ops : DataCube D) (w : Widget D) (mouse_y : Int) : Widget D :=
  let dy := mouse_y - w.mouse_last_y
  let r := ops.zoom_slice w.data_cube w.slice_type dy
  let w1 := { w.log (Action.zoom_slice w.slice_type dy) with data_cube := r.2 }
  if r.1 = 1 then
    (get_slice ops { w1 with mouse_last_y := mouse_y }).log Action.zoom_panning_sig
  else w1

/-- The argument `angle_diff * rot_direction` of the `rotate_slice` call, from the current
and the last pointer angle. `angle_diff` and `angle_temp` are `float` variables: the `float`
difference and each assignment round to binary32, the right-hand sides with the `double`
constant `PI` are `double` expressions, and the product with `rot_direction` (1 or -1) is
exact. -/
def rotation_delta (mouse_angle_rad mouse_last_a : ℚ) : ℚ :=
  let angle_diff := |toFloat (mouse_angle_rad - mouse_last_a)|
  let angle_diff :=
    if angle_diff > PI_double then toFloat (toDouble (2 * PI_double - angle_diff))
    else angle_diff
  let angle_temp := toFloat (mouse_angle_rad - mouse_last_a)
  let angle_temp :=
    if angle_temp < 0 then toFloat (toDouble (angle_temp + 2 * PI_double)) else angle_temp
  let rot_direction : ℚ := if angle_temp < PI_double then 1 else -1
  angle_diff * rot_direction

/-- The right-button branch "when clicked line = rotation" of `mouseMoveEvent`;
`mouse_angle_rad` is the pointer angle taken at the head of the handler. -/
def move_rotate (M : Libm) (ops : DataCube D) (w : Widget D) (mouse_angle_rad : ℚ)
    (mouse_x mouse_y : Int) : Widget D :=
  let a := rotation_delta mouse_angle_rad w.mouse_last_a
  let r := ops.rotate_slice w.data_cube w.slice_type a
  let w1 := { w.log (Action.rotate_slice w.slice_type a) with data_cube := r.2 }
  if r.1 = 1 then
    set_pixmap ops
      (Widget.log
        { w1 with
          mouse_last_x := mouse_x
          mouse_last_y := mouse_y
          mouse_last_a := get_mouse_angle M w1 mouse_x mouse_y }
        (Action.line_moved_sig 2))
  else w1

/-- The window width after a windowing drag with horizontal displacement `dx`. -/
def clamp_window_width (window_width dx : Int) : Int :=
  let ww := window_width + dx
  let ww := if ww < 10 then 10 else ww
  if ww > 4000 then 4000 else ww

/-- The window level after a windowing drag with (inverted) vertical displacement `dy`. -/
def clamp_window_level (window_level dy : Int) : Int :=
  let wl := window_level + dy
  let wl := if wl < -1000 then -1000 else wl
  if wl > 3096 then 3096 else wl

/-- The right-button branch "when clicked screen, not line = windowing" of
`mouseMoveEvent`. -/
def move_windowing (ops : DataCube D) (w : Widget D) (mouse_x mouse_y : Int) : Widget D :=
  let dx := mouse_x - w.mouse_last_x
  let dy := w.mouse_last_y - mouse_y
  let w1 := apply_windowing ops
    { w with
      window_width := clamp_window_width w.window_width dx
      window_level := clamp_window_level w.window_level dy }
  { w1 with window_changed := 1, mouse_last_x := mouse_x, mouse_last_y := mouse_y }

/-- The middle-button branch (panning) of `mouseMoveEvent`. -/
def move_panning (ops : DataCube D) (w : Widget D) (mouse_x mouse_y : Int) : Widget D :=
  let dx : ℚ := ((w.mouse_last_x - mouse_x : Int) : ℚ) * w.pixel_num / (w.slice_size : ℚ)
  let dy : ℚ := ((w.mouse_last_y - mouse_y : Int) : ℚ) * w.pixel_num / (w.slice_size : ℚ)
  let r := ops.slice_panning w.data_cube w.slice_type dx dy
  let w1 := { w.log (Action.slice_panning w.slice_type dx dy) with data_cube := r.2 }
  if r.1 = 1 then
    (get_slice ops { w1 with mouse_last_x := mouse_x, mouse_last_y := mouse_y }).log
      Action.zoom_panning_sig
  else w1

/-- The "mouse click event" block of `mouseMoveEvent`: the dispatch on the held buttons. -/
def move_buttons (M : Libm) (ops : DataCube D) (w : Widget D) (mouse_angle_rad : ℚ)
    (mouse_x mouse_y : Int) (buttons : Buttons) : Widget D :=
  if buttons.left then
    if w.is_line_visible = 1 ∧ w.line_clicked_h + w.line_clicked_v > 0 then
      move_drag_line M ops w mouse_x mouse_y
    else move_zoom ops w mouse_y
  else if buttons.right then
    if w.is_line_visible = 1 ∧ w.line_clicked_h + w.line_clicked_v > 0 then
      move_rotate M ops w mouse_angle_rad mouse_x mouse_y
    else move_windowing ops w mouse_x mouse_y
  else if buttons.mid then move_panning ops w mouse_x mouse_y
  else w

/-- Member `SliceWidget::mouseMoveEvent`, for an event at `(x, y)` with the given buttons held. -/
def mouseMoveEvent (M : Libm) (ops : DataCube D) (w : Widget D) (x y : Int)
    (buttons : Buttons) : Widget D :=
  if w.is_valid = 0 then w
  else
    let mouse_x := clamp_mouse_x w.slice_size x
    let mouse_y := clamp_mouse_y w.slice_size y
    let mouse_angle_rad := get_mouse_angle M w mouse_x mouse_y
    let w1 := move_hover M ops w mouse_x mouse_y
    let w2 := move_buttons M ops w1 mouse_angle_rad mouse_x mouse_y buttons
    emit_coord_sig ops w2 1 mouse_x mouse_y

/-! ## Event sequences -/

/-- The operations on a view: the six event handlers and the public members that can be
called between events. -/
inductive Event where
  | leave
  | press (x y : Int)
  | release
  | doubleClick (x y : Int)
  | wheel (wheel_delta x y : Int)
  | move (x y : Int) (buttons : Buttons)
  | init_windowing (apply : Int)
  | set_windowing (wl ww : Int)
  | toggle_slice_line
  | toggle_border_line

/-- One operation on a view. -/
def step (M : Libm) (ops : DataCube D) (w : Widget D) : Event → Widget D
  | .leave => leaveEvent ops w
  | .press x y => mousePressEvent M w x y
  | .release => mouseReleaseEvent w
  | .doubleClick x y => mouseDoubleClickEvent ops w x y
  | .wheel wheel_delta x y => wheelEvent ops w wheel_delta x y
  | .move x y buttons => mouseMoveEvent M ops w x y buttons
  | .init_windowing apply => init_windowing ops w apply
  | .set_windowing wl ww => set_windowing ops w wl ww
  | .toggle_slice_line => toggle_slice_line ops w
  | .toggle_border_line => toggle_border_line ops w

/-- A sequence of operations on a view, in order. -/
def run (M : Libm) (ops : DataCube D) (w : Widget D) (es : List Event) : Widget D :=
  es.foldl (step M ops) w

/-- The actions an operation appended to the trace of `w`. -/
def emitted (w w1 : Widget D) : List Action := w1.trace.drop w.trace.length

/-! ## Descriptions of emitted actions, used to state the theorems -/

/-- Whether an action is a `move_slice` command. -/
def Action.isMoveSlice : Action → Bool
  | .move_slice _ _ _ => true
  | _ => false

/-- The actions of one `set_pixmap` call in state `w`. -/
def redraw_actions (w : Widget D) : List Action :=
  if w.is_valid ≠ 0 ∧ w.is_line_visible = 1 then
    [Action.get_line_info w.slice_type, Action.setPixmap]
  else [Action.setPixmap]

/-- Whether a pointer-move at the clamped position `(mouse_x, mouse_y)` finds hover flags
that differ from the stored ones. -/
def hover_changed (M : Libm) (w : Widget D) (mouse_x mouse_y : Int) : Prop :=
  line_mouseover_v M w mouse_x mouse_y ≠ w.is_line_mouseover_v
    ∨ line_mouseover_h M w mouse_x mouse_y ≠ w.is_line_mouseover_h

instance (M : Libm) (w : Widget D) (mouse_x mouse_y : Int) :
    Decidable (hover_changed M w mouse_x mouse_y) := by
  unfold hover_changed; infer_instance

/-- The actions of the hover update of a pointer-move: a redraw when the flags changed. -/
def hover_actions (M : Libm) (w : Widget D) (mouse_x mouse_y : Int) : List Action :=
  if hover_changed M w mouse_x mouse_y then redraw_actions w else []

/-- The two actions of `emit_coord_sig(1, mouse_x, mouse_y)` in state `w`. -/
def coord_actions (ops : DataCube D) (w : Widget D) (mouse_x mouse_y : Int) : List Action :=
  [Action.get_coord w.slice_type (coord_scaled w.slice_size w.pixel_num mouse_x)
      (coord_scaled w.slice_size w.pixel_num mouse_y),
    Action.coord_info_sig (some
      ((ops.get_coord w.data_cube w.slice_type (coord_scaled w.slice_size w.pixel_num mouse_x)
          (coord_scaled w.slice_size w.pixel_num mouse_y)).1,
        (ops.get_coord w.data_cube w.slice_type (coord_scaled w.slice_size w.pixel_num mouse_x)
          (coord_scaled w.slice_size w.pixel_num mouse_y)).2.1,
        (ops.get_coord w.data_cube w.slice_type (coord_scaled w.slice_size w.pixel_num mouse_x)
          (coord_scaled w.slice_size w.pixel_num mouse_y)).2.2.1,
        truncToInt (w.rescale_slope *
          (((ops.get_coord w.data_cube w.slice_type
            (coord_scaled w.slice_size w.pixel_num mouse_x)
            (coord_scaled w.slice_size w.pixel_num mouse_y)).2.2.2 : Int) : ℚ)
          + w.rescale_intercept)))]

/-- The colour convention in the words of the claim: axis 0 is red, axis 1 is green, axis 2
is blue. -/
def axis_color (axis : Int) : PenColor :=
  if axis = 0 then PenColor.red else if axis = 1 then PenColor.green else PenColor.blue

/-- Whether an action is a `get_slice` call on the collaborator. -/
def Action.isGetSlice : Action → Bool
  | .get_slice _ => true
  | _ => false

/-- Whether a pointer-move with the held buttons `b` takes the windowing branch of
`mouseMoveEvent` in state `w`: the view is valid, the secondary button is held without the
primary one, and no arm of a visible crosshair is captured. -/
def takes_windowing_branch (w : Widget D) (b : Buttons) : Bool :=
  decide (w.is_valid ≠ 0) && !b.left && b.right
    && !decide (w.is_line_visible = 1 ∧ w.line_clicked_h + w.line_clicked_v > 0)

/-- Whether, at the end of the operations `es` started in `w`, some pointer-move since the
last pointer-up has taken the windowing branch; `acc` is the answer at the start. -/
def windowing_pending (M : Libm) (ops : DataCube D) : Widget D → List Event → Bool → Bool
  | _, [], acc => acc
  | w, e :: es, acc =>
    windowing_pending M ops (step M ops w e) es
      (match e with
        | .release => false
        | .move _ _ b => acc || takes_windowing_branch w b
        | _ => acc)

/-! ## Fixtures for the worked examples -/

/-- Modelled from the spec: an instance of the `DataCube` contract at rest, a volume two
samples high (seven samples per slice) with its crosshair at `(1, 1)` and angle 0, whose every
navigation command reports that nothing moved, as the contract allows at a volume boundary. -/
def stillCube : DataCube Unit where
  get_pixel_info _ := (2, 1, -1024, -1024, 3071)
  get_slice _ _ := [-2000, 0, 900, 1000, 1100, 1200, 3000]
  get_line_info _ _ := (1, 1, 0)
  get_coord _ _ m_x m_y := (m_x, m_y, 0, 1024)
  move_center d _ _ _ := (0, d)
  move_slice d _ _ _ := (0, d)
  zoom_slice d _ _ := (0, d)
  rotate_slice d _ _ := (0, d)
  slice_panning d _ _ _ := (0, d)
  toggle_border_line d _ := d

/-- A coarse rational arctangent on `[-1, 1]`. -/
def coarse_atan (t : ℚ) : ℚ := t / (1 + 7 / 25 * t ^ 2)

/-- A coarse rational math library: truncated Taylor polynomials for `sin` and `cos`, an
integer square root, and a quadrant-aware `atan2`. The worked examples do not depend on its
accuracy. -/
def coarseLibm : Libm where
  atan2 y x :=
    if x = 0 then (if y > 0 then PI / 2 else if y < 0 then -(PI / 2) else 0)
    else if |y| ≤ |x| then
      (if x > 0 then coarse_atan (y / x)
        else if y ≥ 0 then coarse_atan (y / x) + PI else coarse_atan (y / x) - PI)
    else (if y > 0 then PI / 2 - coarse_atan (x / y) else -(PI / 2) - coarse_atan (x / y))
  sqrt q := (Nat.sqrt (q.num.toNat * q.den) : ℚ) / (q.den : ℚ)
  sin x := x - x ^ 3 / 6 + x ^ 5 / 120
  cos x := 1 - x ^ 2 / 2 + x ^ 4 / 24

/-- A view of slice type 0 and display height 4 as the constructor leaves it (members the
constructor does not set are 0), before `set_data`. -/
def blankView : Widget Unit where
  data_cube := ()
  slice_data := []
  windowed_slice := []
  slice_type := 0
  is_valid := 0
  slice_size := 4
  pixel_num := 0
  rescale_slope := 0
  rescale_intercept := 0
  pixel_min := 0
  pixel_max := 0
  is_line_visible := 1
  is_line_mouseover_h := 0
  is_line_mouseover_v := 0
  line_clicked_v := 0
  line_clicked_h := 0
  mouse_last_x := 0
  mouse_last_y := 0
  line_x := 0
  line_y := 0
  line_x_scaled := 0
  line_y_scaled := 0
  line_angle_rad := 0
  mouse_last_a := 0
  window_level := 0
  window_width := 0
  window_changed := 0
  zoom_changed := 0
  trace := []

/-- A valid view on `stillCube` with an empty trace: slice type 0, display height 4, crosshair
visible with its anchor at screen position `(2, 2)`, default windowing, no hover, no capture,
last pointer position `(0, 0)`. -/
def demoView : Widget Unit :=
  { blankView with
    is_valid := 1
    pixel_num := 2
    rescale_slope := 1
    rescale_intercept := -1024
    pixel_min := -1024
    pixel_max := 3071
    slice_data := [-2000, 0, 900, 1000, 1100, 1200, 3000]
    windowed_slice := [some 255, some 0, some 0, some 73, some 146, some 219, some 255]
    line_x := 1
    line_y := 1
    line_x_scaled := 2
    line_y_scaled := 2
    window_level := 50
    window_width := 350 }

/-- The view `demoView` with the vertical arm captured (`line_clicked_v = 1`), as after a
press while hovering that arm. -/
def capturedView : Widget Unit :=
  { demoView with line_clicked_v := 1 }

/-! ## Windowing: formula and monotonicity -/

theorem truncToInt_of_nonneg {q : ℚ} (h : 0 ≤ q) : truncToInt q = ⌊q⌋ := by
  simp [truncToInt, h]

theorem window_clamped_nonneg (s i : ℚ) (wl ww v : Int) : 0 ≤ window_clamped s i wl ww v :=
  le_max_left _ _

theorem window_clamped_le (s i : ℚ) (wl ww v : Int) (hw : 0 ≤ ww) :
    window_clamped s i wl ww v ≤ ww := by
  have : (0:ℚ) ≤ ww := by exact_mod_cast hw
  exact max_le this (min_le_right _ _)

/-- The clamping `if`-chain of the source is `max 0 (min t w)` for a non-negative width. -/
theorem clamp_chain_eq (t w : ℚ) (hw : 0 ≤ w) :
    (if t < 0 then 0 else if t > w then w else t) = max 0 (min t w) := by
  by_cases h1 : t < 0
  · rw [if_pos h1, max_eq_left]
    exact le_trans (min_le_left _ _) h1.le
  · rw [if_neg h1]
    push_neg at h1
    by_cases h2 : t > w
    · rw [if_pos h2, min_eq_right h2.le, max_eq_right hw]
    · rw [if_neg h2]
      push_neg at h2
      rw [min_eq_left h2, max_eq_right h1]

/-- The value handed to the narrowing cast lies in `[0, 255]` for a positive width. -/
theorem scaled_bounds (s i : ℚ) (wl ww v : Int) (hw : 0 < ww) :
    0 ≤ window_clamped s i wl ww v * 255 / ww ∧ window_clamped s i wl ww v * 255 / ww ≤ 255 := by
  have hq : (0:ℚ) < ww := by exact_mod_cast hw
  have h0 := window_clamped_nonneg s i wl ww v
  have h1 := window_clamped_le s i wl ww v hw.le
  constructor
  · positivity
  · rw [div_le_iff₀ hq]; nlinarith

/-- For a positive width and a sample not below `pixel_min`, the stored byte is the floor of
the scaled clamped value. -/
theorem window_sample_eq_floor (s i m : ℚ) (wl ww v : Int) (hv : ¬ ((v : ℚ) < m))
    (hw : 0 < ww) :
    window_sample s i m wl ww v = some (Int.toNat ⌊window_clamped s i wl ww v * 255 / ww⌋) := by
  have hq : (0:ℚ) < ww := by exact_mod_cast hw
  have hb := scaled_bounds s i wl ww v hw
  have htd : Int.tdiv ww 2 = ww / 2 := Int.tdiv_eq_ediv hw.le (by decide)
  unfold window_sample
  simp only [if_neg hv, if_neg hw.ne', htd]
  rw [clamp_chain_eq _ _ hq.le]
  change toUChar (window_clamped s i wl ww v * 255 / ww) = _
  unfold toUChar
  rw [truncToInt_of_nonneg hb.1]
  have h0 : 0 ≤ ⌊window_clamped s i wl ww v * 255 / ww⌋ := Int.floor_nonneg.2 hb.1
  have h1 : ⌊window_clamped s i wl ww v * 255 / ww⌋ ≤ 255 := by
    have := Int.floor_le (window_clamped s i wl ww v * 255 / ww)
    have h2 : ((⌊window_clamped s i wl ww v * 255 / ww⌋ : Int) : ℚ) ≤ 255 := le_trans this hb.2
    exact_mod_cast h2
  rw [if_pos ⟨h0, h1⟩]

/-- The clamped value is monotone in the raw sample when the rescale slope is not negative. -/
theorem window_clamped_mono (s i : ℚ) (wl ww v1 v2 : Int) (hs : 0 ≤ s) (h12 : v1 ≤ v2) :
    window_clamped s i wl ww v1 ≤ window_clamped s i wl ww v2 := by
  have hq : (v1 : ℚ) ≤ v2 := by exact_mod_cast h12
  have : s * (v1 : ℚ) ≤ s * v2 := mul_le_mul_of_nonneg_left hq hs
  unfold window_clamped
  exact max_le_max le_rfl (min_le_min (by linarith) le_rfl)

/-- C3 (as stated, refuted): with rescale slope -1 (intercept 0, `pixel_min` 0, level 0,
width 10) the samples 0 ≤ 5 are stored as the bytes 127 and 0. -/
theorem apply_windowing_negative_slope :
    (0 : Int) ≤ 5 ∧ window_sample (-1) 0 0 0 10 0 = some 127 ∧
    window_sample (-1) 0 0 0 10 5 = some 0 := by
  refine ⟨by decide, ?_, ?_⟩
  · rw [window_sample_eq_floor _ _ _ _ _ _ (by norm_num) (by decide)]
    have : ⌊window_clamped (-1) 0 0 10 0 * 255 / ((10:Int):ℚ)⌋ = 127 := by
      rw [Int.floor_eq_iff]
      norm_num [window_clamped]
    rw [this]; rfl
  · rw [window_sample_eq_floor _ _ _ _ _ _ (by norm_num) (by decide)]
    have : ⌊window_clamped (-1) 0 0 10 5 * 255 / ((10:Int):ℚ)⌋ = 0 := by
      rw [Int.floor_eq_iff]
      norm_num [window_clamped]
    rw [this]; rfl

/-- C3 (amended): for a rescale slope that is not negative, any intercept and `pixel_min`,
any level and any width of at least 10, two raw samples `v1 ≤ v2` that are both not below
`pixel_min` are stored as bytes `b1 ≤ b2`. -/
theorem apply_windowing_monotone (s i m : ℚ) (wl ww v1 v2 : Int) (hs : 0 ≤ s)
    (hw : 10 ≤ ww) (h12 : v1 ≤ v2) (h1 : m ≤ (v1 : ℚ)) (h2 : m ≤ (v2 : ℚ)) :
    ∃ b1 b2, window_sample s i m wl ww v1 = some b1 ∧ window_sample s i m wl ww v2 = some b2
      ∧ b1 ≤ b2 := by
  have hpos : 0 < ww := by omega
  have hq : (0:ℚ) < ww := by exact_mod_cast hpos
  refine ⟨_, _, window_sample_eq_floor s i m wl ww v1 (not_lt.2 h1) hpos,
    window_sample_eq_floor s i m wl ww v2 (not_lt.2 h2) hpos, ?_⟩
  apply Int.toNat_le_toNat
  apply Int.floor_mono
  have := window_clamped_mono s i wl ww v1 v2 hs h12
  apply div_le_div_of_nonneg_right _ hq.le
  linarith

/-- A witness of the monotonicity: slope 1, intercept -1024, level 50, width 350, samples
1000 and 1100. -/
theorem apply_windowing_monotone_witness :
    ((0 : ℚ) ≤ 1 ∧ (10 : Int) ≤ 350 ∧ (1000 : Int) ≤ 1100) ∧
    ∃ b1 b2, window_sample 1 (-1024) (-1024) 50 350 1000 = some b1 ∧
      window_sample 1 (-1024) (-1024) 50 350 1100 = some b2 ∧ b1 ≤ b2 :=
  ⟨⟨by norm_num, by decide, by decide⟩,
    apply_windowing_monotone 1 (-1024) (-1024) 50 350 1000 1100 (by norm_num) (by decide)
      (by decide) (by norm_num) (by norm_num)⟩

/-! ## Coordinate mapping: round trip -/

/-- C4 (as stated, refuted): with `slice_size = 100` and `pixel_num = 512` the volume
coordinate 511 maps to screen 99 and back to 506. -/
theorem coord_round_trip_shrunk :
    line_scaled 100 512 511 = 99 ∧ coord_scaled 100 512 99 = 506 := by
  constructor
  · unfold line_scaled
    rw [truncToInt_of_nonneg (by norm_num), Int.floor_eq_iff]
    norm_num
  · unfold coord_scaled
    rw [truncToInt_of_nonneg (by norm_num), Int.floor_eq_iff]
    norm_num

/-- C4 (amended): for every positive `slice_size` and positive `pixel_num` with
`pixel_num ≤ slice_size` (the display is not smaller than the sample grid) and every volume
coordinate `p ≥ 0`, mapping to the screen as `set_pixmap` does and back as `emit_coord_sig`
does yields `p - 1` or `p`. -/
theorem coord_round_trip (slice_size : Int) (pixel_num : ℚ) (p : Int)
    (hN : 0 < pixel_num) (hNS : pixel_num ≤ (slice_size : ℚ)) (hp : 0 ≤ p) :
    p - 1 ≤ coord_scaled slice_size pixel_num (line_scaled slice_size pixel_num p) ∧
    coord_scaled slice_size pixel_num (line_scaled slice_size pixel_num p) ≤ p := by
  have hS : (0:ℚ) < slice_size := lt_of_lt_of_le hN hNS
  have hpq : (0:ℚ) ≤ p := by exact_mod_cast hp
  have hx : (0:ℚ) ≤ ((p * slice_size : Int) : ℚ) / pixel_num := by
    push_cast; positivity
  have hs_eq : line_scaled slice_size pixel_num p = ⌊((p * slice_size : Int) : ℚ) / pixel_num⌋ := by
    unfold line_scaled; exact truncToInt_of_nonneg hx
  set sc := line_scaled slice_size pixel_num p with hsc
  have hs0 : 0 ≤ sc := by rw [hs_eq]; exact Int.floor_nonneg.2 hx
  have hs0q : (0:ℚ) ≤ sc := by exact_mod_cast hs0
  have hle : (sc : ℚ) ≤ ((p * slice_size : Int) : ℚ) / pixel_num := by
    rw [hs_eq]; exact Int.floor_le _
  have hlt : ((p * slice_size : Int) : ℚ) / pixel_num < sc + 1 := by
    rw [hs_eq]; exact Int.lt_floor_add_one _
  rw [le_div_iff₀ hN] at hle
  rw [div_lt_iff₀ hN] at hlt
  push_cast at hle hlt
  have hy : (0:ℚ) ≤ (sc : ℚ) * pixel_num / slice_size := by positivity
  have hb_eq : coord_scaled slice_size pixel_num sc = ⌊(sc : ℚ) * pixel_num / slice_size⌋ := by
    unfold coord_scaled; exact truncToInt_of_nonneg hy
  rw [hb_eq]
  constructor
  · rw [Int.le_floor, le_div_iff₀ hS]
    push_cast
    nlinarith
  · have h1 : (sc : ℚ) * pixel_num / slice_size ≤ p := by
      rw [div_le_iff₀ hS]; linarith
    have h2 := Int.floor_le ((sc : ℚ) * pixel_num / slice_size)
    have h3 : ((⌊(sc : ℚ) * pixel_num / slice_size⌋ : Int) : ℚ) ≤ (p : ℚ) := le_trans h2 h1
    exact_mod_cast h3

/-- A witness of the round trip: `slice_size = 512`, `pixel_num = 256`, coordinate 100. -/
theorem coord_round_trip_witness :
    ((0 : ℚ) < 256 ∧ (256 : ℚ) ≤ ((512 : Int) : ℚ) ∧ (0 : Int) ≤ 100) ∧
    (100 - 1 ≤ coord_scaled 512 256 (line_scaled 512 256 100) ∧
      coord_scaled 512 256 (line_scaled 512 256 100) ≤ 100) :=
  ⟨⟨by norm_num, by norm_num, by decide⟩,
    coord_round_trip 512 256 100 (by norm_num) (by norm_num) (by decide)⟩

/-! ## Pointer angle -/

/-- On the anchor's column `get_mouse_angle` returns `PI / 2` at or below the anchor and
`3 * PI / 2` above it. -/
theorem get_mouse_angle_on_anchor_column (M : Libm) (w : Widget D) (mouse_y : Int) :
    get_mouse_angle M w w.line_x_scaled mouse_y
      = if mouse_y ≥ w.line_y_scaled then PI / 2 else 3 * PI / 2 := by
  simp [get_mouse_angle]

/-- C5 (code at the failing input): with the anchor at `(10, 20)`, a pointer on the anchor's
row takes the last branch of `get_mouse_angle`, not the branch for the x axis: at `(15, 20)`
the result is `atan2(5, 0) + 3 * PI / 2` and at `(5, 20)` it is `atan2(-5, 0) + 3 * PI / 2`. -/
theorem get_mouse_angle_on_anchor_row (M : Libm) (w : Widget D) :
    get_mouse_angle M { w with line_x_scaled := 10, line_y_scaled := 20 } 15 20
      = M.atan2 5 0 + 3 * PI / 2 ∧
    get_mouse_angle M { w with line_x_scaled := 10, line_y_scaled := 20 } 5 20
      = M.atan2 (-5) 0 + 3 * PI / 2 := by
  constructor <;> simp [get_mouse_angle]

/-- C6 (code at the failing input): with the anchor at `(10, 20)` the pointer `(15, 10)`,
whose displacement `(5, -10)` is off both axes, gets the angle 0 because its y coordinate
equals the anchor's x coordinate; the same displacement from the anchor `(11, 20)` gets
`atan2(5, 10) + 3 * PI / 2`. -/
theorem get_mouse_angle_off_axis_slip (M : Libm) (w : Widget D) :
    get_mouse_angle M { w with line_x_scaled := 10, line_y_scaled := 20 } 15 10 = 0 ∧
    get_mouse_angle M { w with line_x_scaled := 11, line_y_scaled := 20 } 16 10
      = M.atan2 5 10 + 3 * PI / 2 := by
  constructor <;> simp [get_mouse_angle]


/-! ## Frame lemmas: what each member leaves unchanged -/

theorem set_pixmap_eq (ops : DataCube D) (w : Widget D) :
    set_pixmap ops w =
      { w with
        line_x := if w.is_valid ≠ 0 ∧ w.is_line_visible = 1 then
          (ops.get_line_info w.data_cube w.slice_type).1 else w.line_x
        line_y := if w.is_valid ≠ 0 ∧ w.is_line_visible = 1 then
          (ops.get_line_info w.data_cube w.slice_type).2.1 else w.line_y
        line_angle_rad := if w.is_valid ≠ 0 ∧ w.is_line_visible = 1 then
          (ops.get_line_info w.data_cube w.slice_type).2.2 else w.line_angle_rad
        line_x_scaled := if w.is_valid ≠ 0 ∧ w.is_line_visible = 1 then
          line_scaled w.slice_size w.pixel_num (ops.get_line_info w.data_cube w.slice_type).1
          else w.line_x_scaled
        line_y_scaled := if w.is_valid ≠ 0 ∧ w.is_line_visible = 1 then
          line_scaled w.slice_size w.pixel_num (ops.get_line_info w.data_cube w.slice_type).2.1
          else w.line_y_scaled
        trace := w.trace ++ (if w.is_valid ≠ 0 ∧ w.is_line_visible = 1 then
          [Action.get_line_info w.slice_type, Action.setPixmap] else [Action.setPixmap]) } := by
  unfold set_pixmap
  by_cases h1 : w.is_valid = 0
  · simp [h1, Widget.log]
  · by_cases h2 : w.is_line_visible = 1
    · simp [h1, h2, Widget.log]
    · simp [h1, h2, Widget.log]

/-- Logging an action changes only the trace. -/
@[simp] theorem log_frame (w : Widget D) (a : Action) :
    (w.log a).data_cube = w.data_cube ∧ (w.log a).slice_data = w.slice_data ∧
    (w.log a).windowed_slice = w.windowed_slice ∧ (w.log a).slice_type = w.slice_type ∧
    (w.log a).is_valid = w.is_valid ∧ (w.log a).slice_size = w.slice_size ∧
    (w.log a).pixel_num = w.pixel_num ∧ (w.log a).rescale_slope = w.rescale_slope ∧
    (w.log a).rescale_intercept = w.rescale_intercept ∧ (w.log a).pixel_min = w.pixel_min ∧
    (w.log a).pixel_max = w.pixel_max ∧ (w.log a).is_line_visible = w.is_line_visible ∧
    (w.log a).is_line_mouseover_h = w.is_line_mouseover_h ∧
    (w.log a).is_line_mouseover_v = w.is_line_mouseover_v ∧
    (w.log a).line_clicked_v = w.line_clicked_v ∧ (w.log a).line_clicked_h = w.line_clicked_h ∧
    (w.log a).mouse_last_x = w.mouse_last_x ∧ (w.log a).mouse_last_y = w.mouse_last_y ∧
    (w.log a).line_x = w.line_x ∧ (w.log a).line_y = w.line_y ∧
    (w.log a).line_x_scaled = w.line_x_scaled ∧ (w.log a).line_y_scaled = w.line_y_scaled ∧
    (w.log a).line_angle_rad = w.line_angle_rad ∧ (w.log a).mouse_last_a = w.mouse_last_a ∧
    (w.log a).window_level = w.window_level ∧ (w.log a).window_width = w.window_width ∧
    (w.log a).window_changed = w.window_changed ∧ (w.log a).zoom_changed = w.zoom_changed := by
  simp [Widget.log]

/-- A redraw changes only the crosshair geometry and the trace. -/
@[simp] theorem set_pixmap_frame (ops : DataCube D) (w : Widget D) :
    (set_pixmap ops w).data_cube = w.data_cube ∧ (set_pixmap ops w).slice_data = w.slice_data ∧
    (set_pixmap ops w).windowed_slice = w.windowed_slice ∧
    (set_pixmap ops w).slice_type = w.slice_type ∧ (set_pixmap ops w).is_valid = w.is_valid ∧
    (set_pixmap ops w).slice_size = w.slice_size ∧ (set_pixmap ops w).pixel_num = w.pixel_num ∧
    (set_pixmap ops w).rescale_slope = w.rescale_slope ∧
    (set_pixmap ops w).rescale_intercept = w.rescale_intercept ∧
    (set_pixmap ops w).pixel_min = w.pixel_min ∧ (set_pixmap ops w).pixel_max = w.pixel_max ∧
    (set_pixmap ops w).is_line_visible = w.is_line_visible ∧
    (set_pixmap ops w).is_line_mouseover_h = w.is_line_mouseover_h ∧
    (set_pixmap ops w).is_line_mouseover_v = w.is_line_mouseover_v ∧
    (set_pixmap ops w).line_clicked_v = w.line_clicked_v ∧
    (set_pixmap ops w).line_clicked_h = w.line_clicked_h ∧
    (set_pixmap ops w).mouse_last_x = w.mouse_last_x ∧
    (set_pixmap ops w).mouse_last_y = w.mouse_last_y ∧
    (set_pixmap ops w).mouse_last_a = w.mouse_last_a ∧
    (set_pixmap ops w).window_level = w.window_level ∧
    (set_pixmap ops w).window_width = w.window_width ∧
    (set_pixmap ops w).window_changed = w.window_changed ∧
    (set_pixmap ops w).zoom_changed = w.zoom_changed := by
  rw [set_pixmap_eq]; simp

/-- Windowing changes only the displayable buffer, the crosshair geometry and the trace. -/
@[simp] theorem apply_windowing_frame (ops : DataCube D) (w : Widget D) :
    (apply_windowing ops w).data_cube = w.data_cube ∧
    (apply_windowing ops w).slice_data = w.slice_data ∧
    (apply_windowing ops w).slice_type = w.slice_type ∧
    (apply_windowing ops w).is_valid = w.is_valid ∧
    (apply_windowing ops w).slice_size = w.slice_size ∧
    (apply_windowing ops w).pixel_num = w.pixel_num ∧
    (apply_windowing ops w).rescale_slope = w.rescale_slope ∧
    (apply_windowing ops w).rescale_intercept = w.rescale_intercept ∧
    (apply_windowing ops w).pixel_min = w.pixel_min ∧
    (apply_windowing ops w).pixel_max = w.pixel_max ∧
    (apply_windowing ops w).is_line_visible = w.is_line_visible ∧
    (apply_windowing ops w).is_line_mouseover_h = w.is_line_mouseover_h ∧
    (apply_windowing ops w).is_line_mouseover_v = w.is_line_mouseover_v ∧
    (apply_windowing ops w).line_clicked_v = w.line_clicked_v ∧
    (apply_windowing ops w).line_clicked_h = w.line_clicked_h ∧
    (apply_windowing ops w).mouse_last_x = w.mouse_last_x ∧
    (apply_windowing ops w).mouse_last_y = w.mouse_last_y ∧
    (apply_windowing ops w).mouse_last_a = w.mouse_last_a ∧
    (apply_windowing ops w).window_level = w.window_level ∧
    (apply_windowing ops w).window_width = w.window_width ∧
    (apply_windowing ops w).window_changed = w.window_changed ∧
    (apply_windowing ops w).zoom_changed = w.zoom_changed := by
  simp [apply_windowing]

/-- A slice refresh changes only the two buffers, the crosshair geometry and the trace. -/
@[simp] theorem get_slice_frame (ops : DataCube D) (w : Widget D) :
    (get_slice ops w).data_cube = w.data_cube ∧ (get_slice ops w).slice_type = w.slice_type ∧
    (get_slice ops w).is_valid = w.is_valid ∧ (get_slice ops w).slice_size = w.slice_size ∧
    (get_slice ops w).pixel_num = w.pixel_num ∧
    (get_slice ops w).rescale_slope = w.rescale_slope ∧
    (get_slice ops w).rescale_intercept = w.rescale_intercept ∧
    (get_slice ops w).pixel_min = w.pixel_min ∧ (get_slice ops w).pixel_max = w.pixel_max ∧
    (get_slice ops w).is_line_visible = w.is_line_visible ∧
    (get_slice ops w).is_line_mouseover_h = w.is_line_mouseover_h ∧
    (get_slice ops w).is_line_mouseover_v = w.is_line_mouseover_v ∧
    (get_slice ops w).line_clicked_v = w.line_clicked_v ∧
    (get_slice ops w).line_clicked_h = w.line_clicked_h ∧
    (get_slice ops w).mouse_last_x = w.mouse_last_x ∧
    (get_slice ops w).mouse_last_y = w.mouse_last_y ∧
    (get_slice ops w).mouse_last_a = w.mouse_last_a ∧
    (get_slice ops w).window_level = w.window_level ∧
    (get_slice ops w).window_width = w.window_width ∧
    (get_slice ops w).window_changed = w.window_changed ∧
    (get_slice ops w).zoom_changed = w.zoom_changed := by
  simp [get_slice]

/-- The cursor-info notification changes only the trace. -/
@[simp] theorem emit_coord_sig_frame (ops : DataCube D) (w : Widget D) (is_inside mouse_x mouse_y : Int) :
    (emit_coord_sig ops w is_inside mouse_x mouse_y).data_cube = w.data_cube ∧
    (emit_coord_sig ops w is_inside mouse_x mouse_y).slice_data = w.slice_data ∧
    (emit_coord_sig ops w is_inside mouse_x mouse_y).windowed_slice = w.windowed_slice ∧
    (emit_coord_sig ops w is_inside mouse_x mouse_y).slice_type = w.slice_type ∧
    (emit_coord_sig ops w is_inside mouse_x mouse_y).is_valid = w.is_valid ∧
    (emit_coord_sig ops w is_inside mouse_x mouse_y).slice_size = w.slice_size ∧
    (emit_coord_sig ops w is_inside mouse_x mouse_y).pixel_num = w.pixel_num ∧
    (emit_coord_sig ops w is_inside mouse_x mouse_y).rescale_slope = w.rescale_slope ∧
    (emit_coord_sig ops w is_inside mouse_x mouse_y).rescale_intercept = w.rescale_intercept ∧
    (emit_coord_sig ops w is_inside mouse_x mouse_y).pixel_min = w.pixel_min ∧
    (emit_coord_sig ops w is_inside mouse_x mouse_y).pixel_max = w.pixel_max ∧
    (emit_coord_sig ops w is_inside mouse_x mouse_y).is_line_visible = w.is_line_visible ∧
    (emit_coord_sig ops w is_inside mouse_x mouse_y).is_line_mouseover_h = w.is_line_mouseover_h ∧
    (emit_coord_sig ops w is_inside mouse_x mouse_y).is_line_mouseover_v = w.is_line_mouseover_v ∧
    (emit_coord_sig ops w is_inside mouse_x mouse_y).line_clicked_v = w.line_clicked_v ∧
    (emit_coord_sig ops w is_inside mouse_x mouse_y).line_clicked_h = w.line_clicked_h ∧
    (emit_coord_sig ops w is_inside mouse_x mouse_y).mouse_last_x = w.mouse_last_x ∧
    (emit_coord_sig ops w is_inside mouse_x mouse_y).mouse_last_y = w.mouse_last_y ∧
    (emit_coord_sig ops w is_inside mouse_x mouse_y).line_x = w.line_x ∧
    (emit_coord_sig ops w is_inside mouse_x mouse_y).line_y = w.line_y ∧
    (emit_coord_sig ops w is_inside mouse_x mouse_y).line_x_scaled = w.line_x_scaled ∧
    (emit_coord_sig ops w is_inside mouse_x mouse_y).line_y_scaled = w.line_y_scaled ∧
    (emit_coord_sig ops w is_inside mouse_x mouse_y).line_angle_rad = w.line_angle_rad ∧
    (emit_coord_sig ops w is_inside mouse_x mouse_y).mouse_last_a = w.mouse_last_a ∧
    (emit_coord_sig ops w is_inside mouse_x mouse_y).window_level = w.window_level ∧
    (emit_coord_sig ops w is_inside mouse_x mouse_y).window_width = w.window_width ∧
    (emit_coord_sig ops w is_inside mouse_x mouse_y).window_changed = w.window_changed ∧
    (emit_coord_sig ops w is_inside mouse_x mouse_y).zoom_changed = w.zoom_changed := by
  unfold emit_coord_sig; split_ifs <;> simp

/-- The vertical-arm block changes only the collaborator and the trace. -/
@[simp] theorem drag_v_frame (M : Libm) (ops : DataCube D) (w : Widget D) (mx my : Int) :
    (drag_v M ops w mx my).1.slice_data = w.slice_data ∧
    (drag_v M ops w mx my).1.windowed_slice = w.windowed_slice ∧
    (drag_v M ops w mx my).1.slice_type = w.slice_type ∧
    (drag_v M ops w mx my).1.is_valid = w.is_valid ∧
    (drag_v M ops w mx my).1.slice_size = w.slice_size ∧
    (drag_v M ops w mx my).1.pixel_num = w.pixel_num ∧
    (drag_v M ops w mx my).1.rescale_slope = w.rescale_slope ∧
    (drag_v M ops w mx my).1.rescale_intercept = w.rescale_intercept ∧
    (drag_v M ops w mx my).1.pixel_min = w.pixel_min ∧
    (drag_v M ops w mx my).1.pixel_max = w.pixel_max ∧
    (drag_v M ops w mx my).1.is_line_visible = w.is_line_visible ∧
    (drag_v M ops w mx my).1.is_line_mouseover_h = w.is_line_mouseover_h ∧
    (drag_v M ops w mx my).1.is_line_mouseover_v = w.is_line_mouseover_v ∧
    (drag_v M ops w mx my).1.line_clicked_v = w.line_clicked_v ∧
    (drag_v M ops w mx my).1.line_clicked_h = w.line_clicked_h ∧
    (drag_v M ops w mx my).1.mouse_last_x = w.mouse_last_x ∧
    (drag_v M ops w mx my).1.mouse_last_y = w.mouse_last_y ∧
    (drag_v M ops w mx my).1.line_x = w.line_x ∧ (drag_v M ops w mx my).1.line_y = w.line_y ∧
    (drag_v M ops w mx my).1.line_x_scaled = w.line_x_scaled ∧
    (drag_v M ops w mx my).1.line_y_scaled = w.line_y_scaled ∧
    (drag_v M ops w mx my).1.line_angle_rad = w.line_angle_rad ∧
    (drag_v M ops w mx my).1.mouse_last_a = w.mouse_last_a ∧
    (drag_v M ops w mx my).1.window_level = w.window_level ∧
    (drag_v M ops w mx my).1.window_width = w.window_width ∧
    (drag_v M ops w mx my).1.window_changed = w.window_changed ∧
    (drag_v M ops w mx my).1.zoom_changed = w.zoom_changed := by
  unfold drag_v; split_ifs <;> simp

/-- The horizontal-arm block changes only the collaborator and the trace. -/
@[simp] theorem drag_h_frame (M : Libm) (ops : DataCube D) (w : Widget D) (mx my : Int) :
    (drag_h M ops w mx my).1.slice_data = w.slice_data ∧
    (drag_h M ops w mx my).1.windowed_slice = w.windowed_slice ∧
    (drag_h M ops w mx my).1.slice_type = w.slice_type ∧
    (drag_h M ops w mx my).1.is_valid = w.is_valid ∧
    (drag_h M ops w mx my).1.slice_size = w.slice_size ∧
    (drag_h M ops w mx my).1.pixel_num = w.pixel_num ∧
    (drag_h M ops w mx my).1.rescale_slope = w.rescale_slope ∧
    (drag_h M ops w mx my).1.rescale_intercept = w.rescale_intercept ∧
    (drag_h M ops w mx my).1.pixel_min = w.pixel_min ∧
    (drag_h M ops w mx my).1.pixel_max = w.pixel_max ∧
    (drag_h M ops w mx my).1.is_line_visible = w.is_line_visible ∧
    (drag_h M ops w mx my).1.is_line_mouseover_h = w.is_line_mouseover_h ∧
    (drag_h M ops w mx my).1.is_line_mouseover_v = w.is_line_mouseover_v ∧
    (drag_h M ops w mx my).1.line_clicked_v = w.line_clicked_v ∧
    (drag_h M ops w mx my).1.line_clicked_h = w.line_clicked_h ∧
    (drag_h M ops w mx my).1.mouse_last_x = w.mouse_last_x ∧
    (drag_h M ops w mx my).1.mouse_last_y = w.mouse_last_y ∧
    (drag_h M ops w mx my).1.line_x = w.line_x ∧ (drag_h M ops w mx my).1.line_y = w.line_y ∧
    (drag_h M ops w mx my).1.line_x_scaled = w.line_x_scaled ∧
    (drag_h M ops w mx my).1.line_y_scaled = w.line_y_scaled ∧
    (drag_h M ops w mx my).1.line_angle_rad = w.line_angle_rad ∧
    (drag_h M ops w mx my).1.mouse_last_a = w.mouse_last_a ∧
    (drag_h M ops w mx my).1.window_level = w.window_level ∧
    (drag_h M ops w mx my).1.window_width = w.window_width ∧
    (drag_h M ops w mx my).1.window_changed = w.window_changed ∧
    (drag_h M ops w mx my).1.zoom_changed = w.zoom_changed := by
  unfold drag_h; split_ifs <;> simp

/-- The line drag changes only the collaborator, the last pointer position, the crosshair
geometry and the trace. -/
@[simp] theorem move_drag_line_frame (M : Libm) (ops : DataCube D) (w : Widget D) (mx my : Int) :
    (move_drag_line M ops w mx my).slice_data = w.slice_data ∧
    (move_drag_line M ops w mx my).windowed_slice = w.windowed_slice ∧
    (move_drag_line M ops w mx my).slice_type = w.slice_type ∧
    (move_drag_line M ops w mx my).is_valid = w.is_valid ∧
    (move_drag_line M ops w mx my).slice_size = w.slice_size ∧
    (move_drag_line M ops w mx my).pixel_num = w.pixel_num ∧
    (move_drag_line M ops w mx my).rescale_slope = w.rescale_slope ∧
    (move_drag_line M ops w mx my).rescale_intercept = w.rescale_intercept ∧
    (move_drag_line M ops w mx my).pixel_min = w.pixel_min ∧
    (move_drag_line M ops w mx my).pixel_max = w.pixel_max ∧
    (move_drag_line M ops w mx my).is_line_visible = w.is_line_visible ∧
    (move_drag_line M ops w mx my).is_line_mouseover_h = w.is_line_mouseover_h ∧
    (move_drag_line M ops w mx my).is_line_mouseover_v = w.is_line_mouseover_v ∧
    (move_drag_line M ops w mx my).line_clicked_v = w.line_clicked_v ∧
    (move_drag_line M ops w mx my).line_clicked_h = w.line_clicked_h ∧
    (move_drag_line M ops w mx my).mouse_last_a = w.mouse_last_a ∧
    (move_drag_line M ops w mx my).window_level = w.window_level ∧
    (move_drag_line M ops w mx my).window_width = w.window_width ∧
    (move_drag_line M ops w mx my).window_changed = w.window_changed ∧
    (move_drag_line M ops w mx my).zoom_changed = w.zoom_changed := by
  unfold move_drag_line; simp only []; split_ifs <;> simp

/-- The zoom drag leaves the listed members unchanged. -/
@[simp] theorem move_zoom_frame (ops : DataCube D) (w : Widget D) (my : Int) :
    (move_zoom ops w my).slice_type = w.slice_type ∧ (move_zoom ops w my).is_valid = w.is_valid ∧
    (move_zoom ops w my).slice_size = w.slice_size ∧
    (move_zoom ops w my).pixel_num = w.pixel_num ∧
    (move_zoom ops w my).rescale_slope = w.rescale_slope ∧
    (move_zoom ops w my).rescale_intercept = w.rescale_intercept ∧
    (move_zoom ops w my).pixel_min = w.pixel_min ∧ (move_zoom ops w my).pixel_max = w.pixel_max ∧
    (move_zoom ops w my).is_line_visible = w.is_line_visible ∧
    (move_zoom ops w my).is_line_mouseover_h = w.is_line_mouseover_h ∧
    (move_zoom ops w my).is_line_mouseover_v = w.is_line_mouseover_v ∧
    (move_zoom ops w my).line_clicked_v = w.line_clicked_v ∧
    (move_zoom ops w my).line_clicked_h = w.line_clicked_h ∧
    (move_zoom ops w my).mouse_last_x = w.mouse_last_x ∧
    (move_zoom ops w my).mouse_last_a = w.mouse_last_a ∧
    (move_zoom ops w my).window_level = w.window_level ∧
    (move_zoom ops w my).window_width = w.window_width ∧
    (move_zoom ops w my).window_changed = w.window_changed ∧
    (move_zoom ops w my).zoom_changed = w.zoom_changed := by
  unfold move_zoom; simp only []; split_ifs <;> simp

/-- The rotation drag leaves the listed members unchanged. -/
@[simp] theorem move_rotate_frame (M : Libm) (ops : DataCube D) (w : Widget D) (a : ℚ) (mx my : Int) :
    (move_rotate M ops w a mx my).slice_data = w.slice_data ∧
    (move_rotate M ops w a mx my).windowed_slice = w.windowed_slice ∧
    (move_rotate M ops w a mx my).slice_type = w.slice_type ∧
    (move_rotate M ops w a mx my).is_valid = w.is_valid ∧
    (move_rotate M ops w a mx my).slice_size = w.slice_size ∧
    (move_rotate M ops w a mx my).pixel_num = w.pixel_num ∧
    (move_rotate M ops w a mx my).rescale_slope = w.rescale_slope ∧
    (move_rotate M ops w a mx my).rescale_intercept = w.rescale_intercept ∧
    (move_rotate M ops w a mx my).pixel_min = w.pixel_min ∧
    (move_rotate M ops w a mx my).pixel_max = w.pixel_max ∧
    (move_rotate M ops w a mx my).is_line_visible = w.is_line_visible ∧
    (move_rotate M ops w a mx my).is_line_mouseover_h = w.is_line_mouseover_h ∧
    (move_rotate M ops w a mx my).is_line_mouseover_v = w.is_line_mouseover_v ∧
    (move_rotate M ops w a mx my).line_clicked_v = w.line_clicked_v ∧
    (move_rotate M ops w a mx my).line_clicked_h = w.line_clicked_h ∧
    (move_rotate M ops w a mx my).window_level = w.window_level ∧
    (move_rotate M ops w a mx my).window_width = w.window_width ∧
    (move_rotate M ops w a mx my).window_changed = w.window_changed ∧
    (move_rotate M ops w a mx my).zoom_changed = w.zoom_changed := by
  unfold move_rotate; simp only []; split_ifs <;> simp

/-- The windowing drag leaves the listed members unchanged. -/
@[simp] theorem move_windowing_frame (ops : DataCube D) (w : Widget D) (mx my : Int) :
    (move_windowing ops w mx my).data_cube = w.data_cube ∧
    (move_windowing ops w mx my).slice_data = w.slice_data ∧
    (move_windowing ops w mx my).slice_type = w.slice_type ∧
    (move_windowing ops w mx my).is_valid = w.is_valid ∧
    (move_windowing ops w mx my).slice_size = w.slice_size ∧
    (move_windowing ops w mx my).pixel_num = w.pixel_num ∧
    (move_windowing ops w mx my).rescale_slope = w.rescale_slope ∧
    (move_windowing ops w mx my).rescale_intercept = w.rescale_intercept ∧
    (move_windowing ops w mx my).pixel_min = w.pixel_min ∧
    (move_windowing ops w mx my).pixel_max = w.pixel_max ∧
    (move_windowing ops w mx my).is_line_visible = w.is_line_visible ∧
    (move_windowing ops w mx my).is_line_mouseover_h = w.is_line_mouseover_h ∧
    (move_windowing ops w mx my).is_line_mouseover_v = w.is_line_mouseover_v ∧
    (move_windowing ops w mx my).line_clicked_v = w.line_clicked_v ∧
    (move_windowing ops w mx my).line_clicked_h = w.line_clicked_h ∧
    (move_windowing ops w mx my).mouse_last_a = w.mouse_last_a ∧
    (move_windowing ops w mx my).zoom_changed = w.zoom_changed := by
  simp [move_windowing]

/-- The panning drag leaves the listed members unchanged. -/
@[simp] theorem move_panning_frame (ops : DataCube D) (w : Widget D) (mx my : Int) :
    (move_panning ops w mx my).slice_type = w.slice_type ∧
    (move_panning ops w mx my).is_valid = w.is_valid ∧
    (move_panning ops w mx my).slice_size = w.slice_size ∧
    (move_panning ops w mx my).pixel_num = w.pixel_num ∧
    (move_panning ops w mx my).rescale_slope = w.rescale_slope ∧
    (move_panning ops w mx my).rescale_intercept = w.rescale_intercept ∧
    (move_panning ops w mx my).pixel_min = w.pixel_min ∧
    (move_panning ops w mx my).pixel_max = w.pixel_max ∧
    (move_panning ops w mx my).is_line_visible = w.is_line_visible ∧
    (move_panning ops w mx my).is_line_mouseover_h = w.is_line_mouseover_h ∧
    (move_panning ops w mx my).is_line_mouseover_v = w.is_line_mouseover_v ∧
    (move_panning ops w mx my).line_clicked_v = w.line_clicked_v ∧
    (move_panning ops w mx my).line_clicked_h = w.line_clicked_h ∧
    (move_panning ops w mx my).mouse_last_a = w.mouse_last_a ∧
    (move_panning ops w mx my).window_level = w.window_level ∧
    (move_panning ops w mx my).window_width = w.window_width ∧
    (move_panning ops w mx my).window_changed = w.window_changed ∧
    (move_panning ops w mx my).zoom_changed = w.zoom_changed := by
  unfold move_panning; simp only []; split_ifs <;> simp

/-- The hover update changes only the hover flags, the crosshair geometry and the trace. -/
@[simp] theorem move_hover_frame (M : Libm) (ops : DataCube D) (w : Widget D) (mx my : Int) :
    (move_hover M ops w mx my).data_cube = w.data_cube ∧
    (move_hover M ops w mx my).slice_data = w.slice_data ∧
    (move_hover M ops w mx my).windowed_slice = w.windowed_slice ∧
    (move_hover M ops w mx my).slice_type = w.slice_type ∧
    (move_hover M ops w mx my).is_valid = w.is_valid ∧
    (move_hover M ops w mx my).slice_size = w.slice_size ∧
    (move_hover M ops w mx my).pixel_num = w.pixel_num ∧
    (move_hover M ops w mx my).rescale_slope = w.rescale_slope ∧
    (move_hover M ops w mx my).rescale_intercept = w.rescale_intercept ∧
    (move_hover M ops w mx my).pixel_min = w.pixel_min ∧
    (move_hover M ops w mx my).pixel_max = w.pixel_max ∧
    (move_hover M ops w mx my).is_line_visible = w.is_line_visible ∧
    (move_hover M ops w mx my).line_clicked_v = w.line_clicked_v ∧
    (move_hover M ops w mx my).line_clicked_h = w.line_clicked_h ∧
    (move_hover M ops w mx my).mouse_last_x = w.mouse_last_x ∧
    (move_hover M ops w mx my).mouse_last_y = w.mouse_last_y ∧
    (move_hover M ops w mx my).mouse_last_a = w.mouse_last_a ∧
    (move_hover M ops w mx my).window_level = w.window_level ∧
    (move_hover M ops w mx my).window_width = w.window_width ∧
    (move_hover M ops w mx my).window_changed = w.window_changed ∧
    (move_hover M ops w mx my).zoom_changed = w.zoom_changed := by
  unfold move_hover; split_ifs <;> simp

/-- No button branch changes the listed members. -/
@[simp] theorem move_buttons_frame (M : Libm) (ops : DataCube D) (w : Widget D) (a : ℚ) (mx my : Int)
    (b : Buttons) :
    (move_buttons M ops w a mx my b).slice_type = w.slice_type ∧
    (move_buttons M ops w a mx my b).is_valid = w.is_valid ∧
    (move_buttons M ops w a mx my b).slice_size = w.slice_size ∧
    (move_buttons M ops w a mx my b).pixel_num = w.pixel_num ∧
    (move_buttons M ops w a mx my b).rescale_slope = w.rescale_slope ∧
    (move_buttons M ops w a mx my b).rescale_intercept = w.rescale_intercept ∧
    (move_buttons M ops w a mx my b).pixel_min = w.pixel_min ∧
    (move_buttons M ops w a mx my b).pixel_max = w.pixel_max ∧
    (move_buttons M ops w a mx my b).is_line_visible = w.is_line_visible ∧
    (move_buttons M ops w a mx my b).is_line_mouseover_h = w.is_line_mouseover_h ∧
    (move_buttons M ops w a mx my b).is_line_mouseover_v = w.is_line_mouseover_v ∧
    (move_buttons M ops w a mx my b).line_clicked_v = w.line_clicked_v ∧
    (move_buttons M ops w a mx my b).line_clicked_h = w.line_clicked_h ∧
    (move_buttons M ops w a mx my b).zoom_changed = w.zoom_changed := by
  unfold move_buttons; split_ifs <;> simp


/-! ## Trace lemmas: what each member appends -/

@[simp] theorem log_trace (w : Widget D) (a : Action) : (w.log a).trace = w.trace ++ [a] := rfl

theorem set_pixmap_trace (ops : DataCube D) (w : Widget D) :
    (set_pixmap ops w).trace = w.trace ++ redraw_actions w := by
  rw [set_pixmap_eq]; rfl

theorem emit_coord_sig_trace (ops : DataCube D) (w : Widget D) (mouse_x mouse_y : Int) :
    (emit_coord_sig ops w 1 mouse_x mouse_y).trace
      = w.trace ++ coord_actions ops w mouse_x mouse_y := by
  simp [emit_coord_sig, coord_actions]

theorem move_hover_trace (M : Libm) (ops : DataCube D) (w : Widget D) (mx my : Int) :
    (move_hover M ops w mx my).trace = w.trace ++ hover_actions M w mx my := by
  unfold move_hover hover_actions hover_changed
  split_ifs with h
  · rw [set_pixmap_trace]; simp [redraw_actions]
  · simp

theorem emitted_append (w w1 : Widget D) (l : List Action) (h : w1.trace = w.trace ++ l) :
    emitted w w1 = l := by
  simp [emitted, h]

/-! ## The clamp invariant -/

theorem clamp_window_width_bounds (ww dx : Int) :
    10 ≤ clamp_window_width ww dx ∧ clamp_window_width ww dx ≤ 4000 := by
  unfold clamp_window_width
  simp only []
  split_ifs <;> omega

theorem clamp_window_level_bounds (wl dy : Int) :
    -1000 ≤ clamp_window_level wl dy ∧ clamp_window_level wl dy ≤ 3096 := by
  unfold clamp_window_level
  simp only []
  split_ifs <;> omega

@[simp] theorem move_windowing_window_width (ops : DataCube D) (w : Widget D) (mx my : Int) :
    (move_windowing ops w mx my).window_width
      = clamp_window_width w.window_width (mx - w.mouse_last_x) := by
  simp [move_windowing]

@[simp] theorem move_windowing_window_level (ops : DataCube D) (w : Widget D) (mx my : Int) :
    (move_windowing ops w mx my).window_level
      = clamp_window_level w.window_level (w.mouse_last_y - my) := by
  simp [move_windowing]

@[simp] theorem move_windowing_window_changed (ops : DataCube D) (w : Widget D) (mx my : Int) :
    (move_windowing ops w mx my).window_changed = 1 := by
  simp [move_windowing]

/-- The windowing range of the specification: level in `[-1000, 3096]`, width in
`[10, 4000]`. -/
theorem move_buttons_window_range (M : Libm) (ops : DataCube D) (w : Widget D) (a : ℚ)
    (mx my : Int) (b : Buttons)
    (h : (-1000 ≤ w.window_level ∧ w.window_level ≤ 3096)
      ∧ (10 ≤ w.window_width ∧ w.window_width ≤ 4000)) :
    (-1000 ≤ (move_buttons M ops w a mx my b).window_level
        ∧ (move_buttons M ops w a mx my b).window_level ≤ 3096)
      ∧ (10 ≤ (move_buttons M ops w a mx my b).window_width
        ∧ (move_buttons M ops w a mx my b).window_width ≤ 4000) := by
  unfold move_buttons
  split_ifs
  all_goals first
    | simpa using h
    | (simp only [move_windowing_window_level, move_windowing_window_width]
       exact ⟨clamp_window_level_bounds _ _, clamp_window_width_bounds _ _⟩)

/-- Every operation other than `set_windowing` keeps the window level in `[-1000, 3096]` and
the window width in `[10, 4000]`. -/
theorem clamp_invariant_step (M : Libm) (ops : DataCube D) (w : Widget D) (e : Event)
    (he : ∀ wl ww, e ≠ Event.set_windowing wl ww)
    (h : (-1000 ≤ w.window_level ∧ w.window_level ≤ 3096)
      ∧ (10 ≤ w.window_width ∧ w.window_width ≤ 4000)) :
    (-1000 ≤ (step M ops w e).window_level ∧ (step M ops w e).window_level ≤ 3096)
      ∧ (10 ≤ (step M ops w e).window_width ∧ (step M ops w e).window_width ≤ 4000) := by
  cases e with
  | leave => unfold step leaveEvent; split_ifs <;> simpa using h
  | press x y => unfold step mousePressEvent; split_ifs <;> simpa using h
  | release => unfold step mouseReleaseEvent; simp only []; split_ifs <;> simpa using h
  | doubleClick x y =>
    unfold step mouseDoubleClickEvent; simp only []; split_ifs <;> simpa using h
  | wheel wd x y => unfold step wheelEvent; simp only []; split_ifs <;> simpa using h
  | move x y b =>
    unfold step mouseMoveEvent
    simp only []
    split_ifs
    · exact h
    · simp only [emit_coord_sig_frame]
      apply move_buttons_window_range
      simpa using h
  | init_windowing apply =>
    unfold step init_windowing; simp only []; split_ifs <;> simp
  | set_windowing wl ww => exact absurd rfl (he wl ww)
  | toggle_slice_line => unfold step toggle_slice_line; simpa using h
  | toggle_border_line => unfold step toggle_border_line; simpa using h

/-- From a view initialised by `set_data`, every sequence of operations that contains no
`set_windowing` keeps the window level in `[-1000, 3096]` and the window width in
`[10, 4000]`. -/
theorem clamp_invariant_run (M : Libm) (ops : DataCube D) (w0 : Widget D) (d : D)
    (es : List Event) (hes : ∀ e ∈ es, ∀ wl ww, e ≠ Event.set_windowing wl ww) :
    (-1000 ≤ (run M ops (set_data ops w0 d) es).window_level
        ∧ (run M ops (set_data ops w0 d) es).window_level ≤ 3096)
      ∧ (10 ≤ (run M ops (set_data ops w0 d) es).window_width
        ∧ (run M ops (set_data ops w0 d) es).window_width ≤ 4000) := by
  have key : ∀ (es : List Event) (w : Widget D),
      (∀ e ∈ es, ∀ wl ww, e ≠ Event.set_windowing wl ww) →
      ((-1000 ≤ w.window_level ∧ w.window_level ≤ 3096)
        ∧ (10 ≤ w.window_width ∧ w.window_width ≤ 4000)) →
      ((-1000 ≤ (run M ops w es).window_level ∧ (run M ops w es).window_level ≤ 3096)
        ∧ (10 ≤ (run M ops w es).window_width ∧ (run M ops w es).window_width ≤ 4000)) := by
    intro es
    induction es with
    | nil => intro w _ h; exact h
    | cons e es ih =>
      intro w hes h
      exact ih (step M ops w e) (fun e' he' => hes e' (List.mem_cons_of_mem _ he'))
        (clamp_invariant_step M ops w e (hes e (List.mem_cons_self _ _)) h)
  apply key es _ hes
  simp [set_data]

/-- C1 (code at the failing input): on a view initialised by `set_data`, the operation
`set_windowing(0, 0)` leaves `window_level = 0` and `window_width = 0`, outside
`[10, 4000]`, and `apply_windowing` then has no defined byte for any sample that is not below
`pixel_min`. -/
theorem set_windowing_not_clamped (M : Libm) (ops : DataCube D) (w : Widget D) (d : D) :
    (run M ops (set_data ops w d) [Event.set_windowing 0 0]).window_level = 0 ∧
    (run M ops (set_data ops w d) [Event.set_windowing 0 0]).window_width = 0 ∧
    (run M ops (set_data ops w d) [Event.set_windowing 0 0]).windowed_slice
      = (ops.get_slice d w.slice_type).map
          (fun (v : Int) =>
            if (v : ℚ) < (ops.get_pixel_info d).2.2.2.1 then some 255 else none) := by
  refine ⟨?_, ?_, ?_⟩
  · simp [run, step, set_windowing]
  · simp [run, step, set_windowing]
  · have hw : ∀ (s i m : ℚ) (wl v : Int),
        window_sample s i m wl 0 v = if (v : ℚ) < m then some 255 else none := by
      intro s i m wl v
      simp [window_sample]
    simp only [run, step, set_windowing, apply_windowing, set_pixmap_eq, set_data, get_slice,
      Widget.log, List.foldl]
    exact List.map_congr_left (fun v _ => hw _ _ _ _ v)

/-! ## Hit test at the anchor -/

theorem line_mouseover_at_anchor (M : Libm) (w : Widget D) (hsqrt : M.sqrt 0 = 0) :
    line_mouseover_h M w w.line_x_scaled w.line_y_scaled = 1 ∧
    line_mouseover_v M w w.line_x_scaled w.line_y_scaled = 1 := by
  simp [line_mouseover_h, line_mouseover_v, r_mouse, hsqrt]

theorem move_hover_flags (M : Libm) (ops : DataCube D) (w : Widget D) (mx my : Int) :
    (move_hover M ops w mx my).is_line_mouseover_h = line_mouseover_h M w mx my ∧
    (move_hover M ops w mx my).is_line_mouseover_v = line_mouseover_v M w mx my := by
  unfold move_hover
  split_ifs with h
  · simp
  · push_neg at h
    exact ⟨h.2.symm, h.1.symm⟩

/-- C7: on a valid view, for every crosshair angle, a pointer-move whose canvas-clamped
position is the crosshair anchor `(line_x_scaled, line_y_scaled)` leaves both
`is_line_mouseover_h` and `is_line_mouseover_v` equal to 1 (the math library's `sqrt(0)` is
0). -/
theorem hit_test_at_anchor (M : Libm) (ops : DataCube D) (w : Widget D) (x y : Int)
    (b : Buttons) (hvalid : w.is_valid ≠ 0) (hsqrt : M.sqrt 0 = 0)
    (hx : clamp_mouse_x w.slice_size x = w.line_x_scaled)
    (hy : clamp_mouse_y w.slice_size y = w.line_y_scaled) :
    (mouseMoveEvent M ops w x y b).is_line_mouseover_h = 1 ∧
    (mouseMoveEvent M ops w x y b).is_line_mouseover_v = 1 := by
  have hflags := move_hover_flags M ops w w.line_x_scaled w.line_y_scaled
  have hone := line_mouseover_at_anchor M w hsqrt
  unfold mouseMoveEvent
  simp only [if_neg hvalid, hx, hy, emit_coord_sig_frame, move_buttons_frame]
  exact ⟨hflags.1.trans hone.1, hflags.2.trans hone.2⟩

/-- A witness of the hit test: on `demoView` (anchor at `(2, 2)`) a pointer-move to
`(2, 2)` with no button held. -/
theorem hit_test_at_anchor_witness :
    (demoView.is_valid ≠ 0 ∧ coarseLibm.sqrt 0 = 0
      ∧ clamp_mouse_x demoView.slice_size 2 = demoView.line_x_scaled
      ∧ clamp_mouse_y demoView.slice_size 2 = demoView.line_y_scaled) ∧
    (mouseMoveEvent coarseLibm stillCube demoView 2 2 ⟨false, false, false⟩).is_line_mouseover_h
      = 1 ∧
    (mouseMoveEvent coarseLibm stillCube demoView 2 2 ⟨false, false, false⟩).is_line_mouseover_v
      = 1 :=
  ⟨⟨by decide, by simp [coarseLibm], by decide, by decide⟩,
    hit_test_at_anchor coarseLibm stillCube demoView 2 2 ⟨false, false, false⟩ (by decide)
      (by simp [coarseLibm]) (by decide) (by decide)⟩



/-! ## The windowing-committed notification -/

theorem step_is_valid (M : Libm) (ops : DataCube D) (w : Widget D) (e : Event) :
    (step M ops w e).is_valid = w.is_valid := by
  cases e with
  | leave => unfold step leaveEvent; split_ifs <;> simp
  | press x y => unfold step mousePressEvent; split_ifs <;> simp
  | release => unfold step mouseReleaseEvent; simp only []; split_ifs <;> simp
  | doubleClick x y => unfold step mouseDoubleClickEvent; simp only []; split_ifs <;> simp
  | wheel wd x y => unfold step wheelEvent; simp only []; split_ifs <;> simp
  | move x y b => unfold step mouseMoveEvent; simp only []; split_ifs <;> simp
  | init_windowing apply => unfold step init_windowing; simp only []; split_ifs <;> simp
  | set_windowing wl ww => simp [step, set_windowing]
  | toggle_slice_line => simp [step, toggle_slice_line]
  | toggle_border_line => simp [step, toggle_border_line]

theorem move_buttons_window_changed (M : Libm) (ops : DataCube D) (w : Widget D) (a : ℚ)
    (mx my : Int) (b : Buttons) :
    (move_buttons M ops w a mx my b).window_changed
      = if b.left = false ∧ b.right = true
          ∧ ¬ (w.is_line_visible = 1 ∧ w.line_clicked_h + w.line_clicked_v > 0)
        then 1 else w.window_changed := by
  unfold move_buttons
  split_ifs <;> simp_all

theorem mouseMoveEvent_window_changed (M : Libm) (ops : DataCube D) (w : Widget D)
    (x y : Int) (b : Buttons) (hvalid : w.is_valid ≠ 0) :
    (mouseMoveEvent M ops w x y b).window_changed
      = if takes_windowing_branch w b = true then 1 else w.window_changed := by
  unfold mouseMoveEvent
  simp only [if_neg hvalid, emit_coord_sig_frame, move_buttons_window_changed, move_hover_frame]
  apply if_congr _ rfl rfl
  simp only [takes_windowing_branch, Bool.and_eq_true, Bool.not_eq_true', decide_eq_true_eq,
    decide_eq_false_iff_not]
  tauto

theorem mouseReleaseEvent_window_changed (w : Widget D) (hvalid : w.is_valid ≠ 0) :
    (mouseReleaseEvent w).window_changed ≠ 1 := by
  unfold mouseReleaseEvent
  simp only [if_neg hvalid]
  split_ifs with h
  · simp
  · exact h

/-- On a valid view an operation changes `window_changed` only in two ways: a pointer-up
takes it away from 1, and a pointer-move that takes the windowing branch sets it to 1. -/
theorem step_window_changed (M : Libm) (ops : DataCube D) (w : Widget D) (e : Event)
    (acc : Bool) (hvalid : w.is_valid ≠ 0) (h : w.window_changed = 1 ↔ acc = true) :
    (step M ops w e).window_changed = 1 ↔
      (match e with
        | .release => false
        | .move _ _ b => acc || takes_windowing_branch w b
        | _ => acc) = true := by
  cases e with
  | leave => simpa [step, leaveEvent, hvalid] using h
  | press x y => simpa [step, mousePressEvent, hvalid] using h
  | release => simpa [step] using mouseReleaseEvent_window_changed w hvalid
  | doubleClick x y =>
    unfold step mouseDoubleClickEvent; simp only [if_neg hvalid]; split_ifs <;> simpa using h
  | wheel wd x y =>
    unfold step wheelEvent; simp only [if_neg hvalid]; split_ifs <;> simpa using h
  | move x y b =>
    simp only [step, mouseMoveEvent_window_changed M ops w x y b hvalid]
    by_cases hb : takes_windowing_branch w b = true
    · simp [hb]
    · simp [hb, h]
  | init_windowing apply =>
    unfold step init_windowing; simp only []; split_ifs <;> simpa using h
  | set_windowing wl ww => simpa [step, set_windowing] using h
  | toggle_slice_line => simpa [step, toggle_slice_line] using h
  | toggle_border_line => simpa [step, toggle_border_line] using h

/-- Along any sequence of operations on a valid view, `window_changed` is 1 exactly when a
pointer-move has taken the windowing branch since the last pointer-up. -/
theorem run_window_changed (M : Libm) (ops : DataCube D) (es : List Event) :
    ∀ (w : Widget D) (acc : Bool), w.is_valid ≠ 0 → (w.window_changed = 1 ↔ acc = true) →
      (run M ops w es).is_valid ≠ 0 ∧
      ((run M ops w es).window_changed = 1 ↔ windowing_pending M ops w es acc = true) := by
  induction es with
  | nil => intro w acc hvalid h; exact ⟨hvalid, h⟩
  | cons e es ih =>
    intro w acc hvalid h
    have hv : (step M ops w e).is_valid ≠ 0 := by rw [step_is_valid]; exact hvalid
    exact ih (step M ops w e) _ hv (step_window_changed M ops w e acc hvalid h)

theorem mouseReleaseEvent_trace (w : Widget D) (hvalid : w.is_valid ≠ 0) :
    (mouseReleaseEvent w).trace = w.trace ++
      (if w.window_changed = 1 then
        [Action.windowing_changed_sig w.window_level w.window_width] else []) := by
  unfold mouseReleaseEvent
  simp only [if_neg hvalid]
  split_ifs <;> simp

theorem set_data_is_valid (ops : DataCube D) (w : Widget D) (d : D) :
    (set_data ops w d).is_valid ≠ 0 ∧ ((set_data ops w d).window_changed = 1 ↔ false = true) := by
  simp [set_data]

/-- C8 (amended): in every sequence of operations on a view initialised by `set_data`, a
pointer-up emits `windowing_changed_sig` (with the current level and width) if and only if,
since the previous pointer-up (or since `set_data`), some pointer-move took the windowing
branch of `mouseMoveEvent` (secondary button held without the primary one, no arm of a visible
crosshair captured), whether or not that move changed `window_level` or `window_width`;
otherwise the pointer-up emits nothing. -/
theorem windowing_changed_sig_iff_windowing_move (M : Libm) (ops : DataCube D)
    (w0 : Widget D) (d : D) (es : List Event) :
    emitted (run M ops (set_data ops w0 d) es)
        (mouseReleaseEvent (run M ops (set_data ops w0 d) es))
      = if windowing_pending M ops (set_data ops w0 d) es false = true then
          [Action.windowing_changed_sig (run M ops (set_data ops w0 d) es).window_level
            (run M ops (set_data ops w0 d) es).window_width]
        else [] := by
  have hs := set_data_is_valid ops w0 d
  have hr := run_window_changed M ops es (set_data ops w0 d) false hs.1 hs.2
  apply emitted_append
  rw [mouseReleaseEvent_trace _ hr.1]
  by_cases hp : windowing_pending M ops (set_data ops w0 d) es false = true
  · rw [if_pos hp, if_pos (hr.2.2 hp)]
  · rw [if_neg hp, if_neg (fun h => hp (hr.2.1 h))]



theorem run_snoc (M : Libm) (ops : DataCube D) (w : Widget D) (es : List Event) (e : Event) :
    run M ops w (es ++ [e]) = step M ops (run M ops w es) e := by
  simp [run]

theorem move_buttons_windowing (M : Libm) (ops : DataCube D) (w : Widget D) (a : ℚ)
    (mx my : Int) (b : Buttons) (hb : takes_windowing_branch w b = true) :
    move_buttons M ops w a mx my b = move_windowing ops w mx my := by
  simp only [takes_windowing_branch, Bool.and_eq_true, Bool.not_eq_true', decide_eq_true_eq,
    decide_eq_false_iff_not] at hb
  obtain ⟨⟨⟨_, hl⟩, hr⟩, hc⟩ := hb
  unfold move_buttons
  simp [hl, hr, hc]

theorem takes_windowing_branch_move_hover (M : Libm) (ops : DataCube D) (w : Widget D)
    (mx my : Int) (b : Buttons) :
    takes_windowing_branch (move_hover M ops w mx my) b = takes_windowing_branch w b := by
  simp [takes_windowing_branch]

/-- The windowing branch of a pointer-move: the new width and level are the clamped sums and
`window_changed` is 1. -/
theorem mouseMoveEvent_windowing (M : Libm) (ops : DataCube D) (w : Widget D) (x y : Int)
    (b : Buttons) (hvalid : w.is_valid ≠ 0) (hb : takes_windowing_branch w b = true) :
    (mouseMoveEvent M ops w x y b).window_width
      = clamp_window_width w.window_width (clamp_mouse_x w.slice_size x - w.mouse_last_x) ∧
    (mouseMoveEvent M ops w x y b).window_level
      = clamp_window_level w.window_level (w.mouse_last_y - clamp_mouse_y w.slice_size y) ∧
    (mouseMoveEvent M ops w x y b).window_changed = 1 := by
  have hb1 := (takes_windowing_branch_move_hover M ops w (clamp_mouse_x w.slice_size x)
    (clamp_mouse_y w.slice_size y) b).trans hb
  unfold mouseMoveEvent
  simp only [if_neg hvalid, emit_coord_sig_frame, move_buttons_windowing _ _ _ _ _ _ _ hb1]
  simp

/-- The state of the worked example after `set_data`, a pointer-leave and a press at
`(1, 1)`. -/
theorem pressed_view_facts :
    (run coarseLibm stillCube (set_data stillCube blankView ())
      [Event.leave, Event.press 1 1]).is_valid = 1 ∧
    (run coarseLibm stillCube (set_data stillCube blankView ())
      [Event.leave, Event.press 1 1]).is_line_visible = 1 ∧
    (run coarseLibm stillCube (set_data stillCube blankView ())
      [Event.leave, Event.press 1 1]).line_clicked_h = 0 ∧
    (run coarseLibm stillCube (set_data stillCube blankView ())
      [Event.leave, Event.press 1 1]).line_clicked_v = 0 ∧
    (run coarseLibm stillCube (set_data stillCube blankView ())
      [Event.leave, Event.press 1 1]).mouse_last_x = 1 ∧
    (run coarseLibm stillCube (set_data stillCube blankView ())
      [Event.leave, Event.press 1 1]).mouse_last_y = 1 ∧
    (run coarseLibm stillCube (set_data stillCube blankView ())
      [Event.leave, Event.press 1 1]).slice_size = 4 ∧
    (run coarseLibm stillCube (set_data stillCube blankView ())
      [Event.leave, Event.press 1 1]).window_level = 50 ∧
    (run coarseLibm stillCube (set_data stillCube blankView ())
      [Event.leave, Event.press 1 1]).window_width = 350 := by
  simp [run, step, leaveEvent, mousePressEvent, set_data, blankView]

/-- C8 (as stated, refuted): after `set_data`, a pointer-leave, a press at `(1, 1)` and a
secondary-button move to the same point `(1, 1)` (zero displacement), the level and width are
still 50 and 350, and the following pointer-up emits `windowing_changed_sig(50, 350)`. -/
theorem windowing_changed_sig_without_change :
    (set_data stillCube blankView ()).window_level = 50 ∧
    (set_data stillCube blankView ()).window_width = 350 ∧
    (run coarseLibm stillCube (set_data stillCube blankView ())
      [Event.leave, Event.press 1 1, Event.move 1 1 ⟨false, true, false⟩]).window_level = 50 ∧
    (run coarseLibm stillCube (set_data stillCube blankView ())
      [Event.leave, Event.press 1 1, Event.move 1 1 ⟨false, true, false⟩]).window_width = 350 ∧
    emitted
      (run coarseLibm stillCube (set_data stillCube blankView ())
        [Event.leave, Event.press 1 1, Event.move 1 1 ⟨false, true, false⟩])
      (run coarseLibm stillCube (set_data stillCube blankView ())
        [Event.leave, Event.press 1 1, Event.move 1 1 ⟨false, true, false⟩, Event.release])
      = [Action.windowing_changed_sig 50 350] := by
  obtain ⟨hv, hvis, hch, hcv, hlx, hly, hsz, hwl, hww⟩ := pressed_view_facts
  have hvalid : (run coarseLibm stillCube (set_data stillCube blankView ())
      [Event.leave, Event.press 1 1]).is_valid ≠ 0 := by rw [hv]; decide
  have hb : takes_windowing_branch (run coarseLibm stillCube (set_data stillCube blankView ())
      [Event.leave, Event.press 1 1]) ⟨false, true, false⟩ = true := by
    simp [takes_windowing_branch, hv, hch, hcv]
  have hmove := mouseMoveEvent_windowing coarseLibm stillCube _ 1 1 ⟨false, true, false⟩
    hvalid hb
  rw [hsz, hlx, hly, hwl, hww] at hmove
  have e3 : run coarseLibm stillCube (set_data stillCube blankView ())
      [Event.leave, Event.press 1 1, Event.move 1 1 ⟨false, true, false⟩]
      = mouseMoveEvent coarseLibm stillCube (run coarseLibm stillCube
          (set_data stillCube blankView ()) [Event.leave, Event.press 1 1]) 1 1
          ⟨false, true, false⟩ :=
    run_snoc coarseLibm stillCube _ [Event.leave, Event.press 1 1] _
  have e4 : run coarseLibm stillCube (set_data stillCube blankView ())
      [Event.leave, Event.press 1 1, Event.move 1 1 ⟨false, true, false⟩, Event.release]
      = mouseReleaseEvent (run coarseLibm stillCube (set_data stillCube blankView ())
          [Event.leave, Event.press 1 1, Event.move 1 1 ⟨false, true, false⟩]) :=
    run_snoc coarseLibm stillCube _
      [Event.leave, Event.press 1 1, Event.move 1 1 ⟨false, true, false⟩] _
  have hwl3 : (run coarseLibm stillCube (set_data stillCube blankView ())
      [Event.leave, Event.press 1 1, Event.move 1 1 ⟨false, true, false⟩]).window_level = 50 := by
    rw [e3, hmove.2.1]; decide
  have hww3 : (run coarseLibm stillCube (set_data stillCube blankView ())
      [Event.leave, Event.press 1 1, Event.move 1 1 ⟨false, true, false⟩]).window_width = 350 := by
    rw [e3, hmove.1]; decide
  have hwc3 : (run coarseLibm stillCube (set_data stillCube blankView ())
      [Event.leave, Event.press 1 1, Event.move 1 1 ⟨false, true, false⟩]).window_changed = 1 := by
    rw [e3, hmove.2.2]
  have hv3 : (run coarseLibm stillCube (set_data stillCube blankView ())
      [Event.leave, Event.press 1 1, Event.move 1 1 ⟨false, true, false⟩]).is_valid ≠ 0 := by
    rw [e3, ← step, step_is_valid]; exact hvalid
  refine ⟨by simp [set_data], by simp [set_data], hwl3, hww3, ?_⟩
  apply emitted_append
  rw [e4, mouseReleaseEvent_trace _ hv3, if_pos hwc3, hwl3, hww3]


/-! ## Pointer-move with the primary button on a captured arm -/

theorem move_buttons_drag (M : Libm) (ops : DataCube D) (w : Widget D) (a : ℚ)
    (mx my : Int) (b : Buttons) (hleft : b.left = true) (hvis : w.is_line_visible = 1)
    (hcl : w.line_clicked_h + w.line_clicked_v > 0) :
    move_buttons M ops w a mx my b = move_drag_line M ops w mx my := by
  unfold move_buttons
  simp [hleft, hvis, hcl]

/-- The state and the trace after a line drag in which no `move_slice` call returned 1. -/
theorem move_drag_line_not_moved (M : Libm) (ops : DataCube D) (w : Widget D) (mx my : Int)
    (hv : (drag_v M ops w mx my).2 = 0)
    (hh : (drag_h M ops (drag_v M ops w mx my).1 mx my).2 = 0) :
    move_drag_line M ops w mx my = (drag_h M ops (drag_v M ops w mx my).1 mx my).1 := by
  unfold move_drag_line
  simp [hv, hh]

theorem drag_v_trace (M : Libm) (ops : DataCube D) (w : Widget D) (mx my : Int) :
    ∃ cmds, (∀ a ∈ cmds, Action.isMoveSlice a = true) ∧
      (drag_v M ops w mx my).1.trace = w.trace ++ cmds := by
  unfold drag_v
  split_ifs
  · exact ⟨[_], by simp [Action.isMoveSlice], rfl⟩
  · exact ⟨[], by simp, by simp⟩

theorem drag_h_trace (M : Libm) (ops : DataCube D) (w : Widget D) (mx my : Int) :
    ∃ cmds, (∀ a ∈ cmds, Action.isMoveSlice a = true) ∧
      (drag_h M ops w mx my).1.trace = w.trace ++ cmds := by
  unfold drag_h
  split_ifs
  · exact ⟨[_], by simp [Action.isMoveSlice], rfl⟩
  · exact ⟨[], by simp, by simp⟩

theorem filter_isSignal_of_isMoveSlice (cmds : List Action)
    (h : ∀ a ∈ cmds, Action.isMoveSlice a = true) : cmds.filter Action.isSignal = [] := by
  rw [List.filter_eq_nil_iff]
  intro a ha
  have := h a ha
  cases a <;> simp_all [Action.isMoveSlice, Action.isSignal]

theorem filter_isSignal_hover_actions (M : Libm) (w : Widget D) (mx my : Int) :
    (hover_actions M w mx my).filter Action.isSignal = [] := by
  unfold hover_actions redraw_actions
  split_ifs <;> simp [Action.isSignal]

theorem move_hover_of_not_changed (M : Libm) (ops : DataCube D) (w : Widget D) (mx my : Int)
    (h : ¬ hover_changed M w mx my) : move_hover M ops w mx my = w := by
  unfold hover_changed at h
  unfold move_hover
  rw [if_neg h]

theorem wheelEvent_not_moved (ops : DataCube D) (w : Widget D) (wheel_delta x y : Int)
    (hvalid : w.is_valid ≠ 0)
    (h0 : (ops.move_slice w.data_cube w.slice_type w.slice_type
      (if wheel_delta > 0 then 1 else -1)).1 = 0) :
    wheelEvent ops w wheel_delta x y =
      { w with
        data_cube := (ops.move_slice w.data_cube w.slice_type w.slice_type
          (if wheel_delta > 0 then 1 else -1)).2
        trace := w.trace ++ [Action.move_slice w.slice_type w.slice_type
          (if wheel_delta > 0 then 1 else -1)] } := by
  unfold wheelEvent
  simp only [if_neg hvalid, if_pos h0]
  rfl

/-- A pointer-move with the primary button on a captured arm of a visible crosshair, when no
`move_slice` call returns 1: the buffers are unchanged and the trace grows by the hover
redraw (if any), the `move_slice` commands, and the two actions of `emit_coord_sig`. -/
theorem mouseMoveEvent_drag_not_moved (M : Libm) (ops : DataCube D) (w : Widget D)
    (x y : Int) (b : Buttons) (hvalid : w.is_valid ≠ 0) (hleft : b.left = true)
    (hvis : w.is_line_visible = 1) (hcl : w.line_clicked_h + w.line_clicked_v > 0)
    (hv : (drag_v M ops
      (move_hover M ops w (clamp_mouse_x w.slice_size x) (clamp_mouse_y w.slice_size y))
      (clamp_mouse_x w.slice_size x) (clamp_mouse_y w.slice_size y)).2 = 0)
    (hh : (drag_h M ops (drag_v M ops
      (move_hover M ops w (clamp_mouse_x w.slice_size x) (clamp_mouse_y w.slice_size y))
      (clamp_mouse_x w.slice_size x) (clamp_mouse_y w.slice_size y)).1
      (clamp_mouse_x w.slice_size x) (clamp_mouse_y w.slice_size y)).2 = 0) :
    (mouseMoveEvent M ops w x y b).slice_data = w.slice_data ∧
    (mouseMoveEvent M ops w x y b).windowed_slice = w.windowed_slice ∧
    (∃ cmds, (∀ a ∈ cmds, Action.isMoveSlice a = true) ∧
      (mouseMoveEvent M ops w x y b).trace
        = w.trace ++ (hover_actions M w (clamp_mouse_x w.slice_size x)
            (clamp_mouse_y w.slice_size y) ++ cmds
          ++ coord_actions ops (mouseMoveEvent M ops w x y b) (clamp_mouse_x w.slice_size x)
            (clamp_mouse_y w.slice_size y))) ∧
    (¬ hover_changed M w (clamp_mouse_x w.slice_size x) (clamp_mouse_y w.slice_size y) →
      (mouseMoveEvent M ops w x y b).line_x = w.line_x ∧
      (mouseMoveEvent M ops w x y b).line_y = w.line_y ∧
      (mouseMoveEvent M ops w x y b).line_angle_rad = w.line_angle_rad ∧
      (mouseMoveEvent M ops w x y b).line_x_scaled = w.line_x_scaled ∧
      (mouseMoveEvent M ops w x y b).line_y_scaled = w.line_y_scaled) := by
  set mx := clamp_mouse_x w.slice_size x with hmx
  set my := clamp_mouse_y w.slice_size y with hmy
  set w1 := move_hover M ops w mx my with hw1
  have hvis1 : w1.is_line_visible = 1 := by rw [hw1]; simpa using hvis
  have hcl1 : w1.line_clicked_h + w1.line_clicked_v > 0 := by rw [hw1]; simpa using hcl
  have hmove : mouseMoveEvent M ops w x y b
      = emit_coord_sig ops (drag_h M ops (drag_v M ops w1 mx my).1 mx my).1 1 mx my := by
    unfold mouseMoveEvent
    simp only [if_neg hvalid]
    rw [← hmx, ← hmy, ← hw1, move_buttons_drag M ops w1 _ mx my b hleft hvis1 hcl1,
      move_drag_line_not_moved M ops w1 mx my hv hh]
  obtain ⟨c1, hc1, ht1⟩ := drag_v_trace M ops w1 mx my
  obtain ⟨c2, hc2, ht2⟩ := drag_h_trace M ops (drag_v M ops w1 mx my).1 mx my
  refine ⟨?_, ?_, ⟨c1 ++ c2, ?_, ?_⟩, ?_⟩
  · rw [hmove]; simp [hw1]
  · rw [hmove]; simp [hw1]
  · intro a ha
    rcases List.mem_append.1 ha with h | h
    · exact hc1 a h
    · exact hc2 a h
  · have hco : coord_actions ops (mouseMoveEvent M ops w x y b) mx my
        = coord_actions ops (drag_h M ops (drag_v M ops w1 mx my).1 mx my).1 mx my := by
      rw [hmove]; simp [coord_actions]
    rw [hco, hmove, emit_coord_sig_trace, ht2, ht1, hw1, move_hover_trace]
    simp [List.append_assoc]
  · intro hnc
    have hw1w : w1 = w := move_hover_of_not_changed M ops w mx my hnc
    rw [hmove, hw1w]
    simp


/-- A pointer-move leaves the listed members unchanged. -/
@[simp] theorem mouseMoveEvent_frame (M : Libm) (ops : DataCube D) (w : Widget D) (x y : Int)
    (b : Buttons) :
    (mouseMoveEvent M ops w x y b).slice_type = w.slice_type ∧
    (mouseMoveEvent M ops w x y b).is_valid = w.is_valid ∧
    (mouseMoveEvent M ops w x y b).slice_size = w.slice_size ∧
    (mouseMoveEvent M ops w x y b).pixel_num = w.pixel_num ∧
    (mouseMoveEvent M ops w x y b).rescale_slope = w.rescale_slope ∧
    (mouseMoveEvent M ops w x y b).rescale_intercept = w.rescale_intercept ∧
    (mouseMoveEvent M ops w x y b).pixel_min = w.pixel_min ∧
    (mouseMoveEvent M ops w x y b).pixel_max = w.pixel_max ∧
    (mouseMoveEvent M ops w x y b).is_line_visible = w.is_line_visible ∧
    (mouseMoveEvent M ops w x y b).line_clicked_v = w.line_clicked_v ∧
    (mouseMoveEvent M ops w x y b).line_clicked_h = w.line_clicked_h ∧
    (mouseMoveEvent M ops w x y b).zoom_changed = w.zoom_changed := by
  unfold mouseMoveEvent; simp only []; split_ifs <;> simp

theorem move_drag_line_trace_v (M : Libm) (ops : DataCube D) (w : Widget D) (mx my : Int)
    (hv : w.line_clicked_v = 1) (hh : w.line_clicked_h = 0) :
    (move_drag_line M ops w mx my).trace
      = w.trace ++ (Action.move_slice w.slice_type (axis_v w.slice_type) (drag_d_v M w mx my)
        :: (if (ops.move_slice w.data_cube w.slice_type (axis_v w.slice_type)
              (drag_d_v M w mx my)).1 = 1
            then Action.line_moved_sig 0 :: redraw_actions w else [])) := by
  unfold move_drag_line drag_h drag_v
  simp only [hv, hh, if_true]
  simp only [log_frame, hh, zero_ne_one, if_false, and_false, or_false, false_or]
  split_ifs <;> simp [set_pixmap_trace, redraw_actions]

theorem axis_v_ne (slice_type : Int) : axis_v slice_type ≠ slice_type := by
  unfold axis_v
  split_ifs <;> omega

/-- The trace of a pointer-move with the primary button when only the vertical arm of a
visible crosshair is captured. -/
theorem mouseMoveEvent_drag_v_trace (M : Libm) (ops : DataCube D) (w : Widget D) (x y : Int)
    (b : Buttons) (hvalid : w.is_valid ≠ 0) (hvis : w.is_line_visible = 1)
    (hv : w.line_clicked_v = 1) (hh : w.line_clicked_h = 0) (hleft : b.left = true) :
    (mouseMoveEvent M ops w x y b).trace
      = w.trace ++ (hover_actions M w (clamp_mouse_x w.slice_size x)
          (clamp_mouse_y w.slice_size y)
        ++ (Action.move_slice w.slice_type (axis_v w.slice_type)
            (drag_d_v M (move_hover M ops w (clamp_mouse_x w.slice_size x)
              (clamp_mouse_y w.slice_size y)) (clamp_mouse_x w.slice_size x)
              (clamp_mouse_y w.slice_size y))
          :: (if (ops.move_slice w.data_cube w.slice_type (axis_v w.slice_type)
                (drag_d_v M (move_hover M ops w (clamp_mouse_x w.slice_size x)
                  (clamp_mouse_y w.slice_size y)) (clamp_mouse_x w.slice_size x)
                  (clamp_mouse_y w.slice_size y))).1 = 1
              then Action.line_moved_sig 0 :: redraw_actions w else []))
        ++ coord_actions ops (mouseMoveEvent M ops w x y b) (clamp_mouse_x w.slice_size x)
          (clamp_mouse_y w.slice_size y)) := by
  set mx := clamp_mouse_x w.slice_size x with hmx
  set my := clamp_mouse_y w.slice_size y with hmy
  set w1 := move_hover M ops w mx my with hw1
  have hvis1 : w1.is_line_visible = 1 := by rw [hw1]; simpa using hvis
  have hv1 : w1.line_clicked_v = 1 := by rw [hw1]; simpa using hv
  have hh1 : w1.line_clicked_h = 0 := by rw [hw1]; simpa using hh
  have hcl1 : w1.line_clicked_h + w1.line_clicked_v > 0 := by rw [hv1, hh1]; decide
  have hmove : mouseMoveEvent M ops w x y b
      = emit_coord_sig ops (move_drag_line M ops w1 mx my) 1 mx my := by
    unfold mouseMoveEvent
    simp only [if_neg hvalid]
    rw [← hmx, ← hmy, ← hw1, move_buttons_drag M ops w1 _ mx my b hleft hvis1 hcl1]
  have hco : coord_actions ops (mouseMoveEvent M ops w x y b) mx my
      = coord_actions ops (move_drag_line M ops w1 mx my) mx my := by
    rw [hmove]; simp [coord_actions]
  have hred : redraw_actions w1 = redraw_actions w := by
    rw [hw1]; simp [redraw_actions]
  have hst : w1.slice_type = w.slice_type := by rw [hw1]; simp
  have hdc : w1.data_cube = w.data_cube := by rw [hw1]; simp
  rw [hco, hmove, emit_coord_sig_trace, move_drag_line_trace_v M ops w1 mx my hv1 hh1, hred,
    hst, hdc, hw1, move_hover_trace]
  simp [List.append_assoc]



theorem not_isSignal_of_isMoveSlice (a : Action) (h : Action.isMoveSlice a = true) :
    Action.isSignal a = false := by
  cases a <;> simp_all [Action.isMoveSlice, Action.isSignal]

theorem hover_actions_eq_nil (M : Libm) (w : Widget D) (mx my : Int)
    (h : ¬ hover_changed M w mx my) : hover_actions M w mx my = [] := by
  unfold hover_actions
  rw [if_neg h]

theorem mem_hover_actions (M : Libm) (w : Widget D) (mx my : Int) (a : Action)
    (h : a ∈ hover_actions M w mx my) :
    a = Action.get_line_info w.slice_type ∨ a = Action.setPixmap := by
  unfold hover_actions redraw_actions at h
  split_ifs at h <;> simp_all

theorem mem_redraw_actions (w : Widget D) (a : Action) (h : a ∈ redraw_actions w) :
    a = Action.get_line_info w.slice_type ∨ a = Action.setPixmap := by
  unfold redraw_actions at h
  split_ifs at h <;> simp_all

/-- C9 (amended): on a valid view, (1) a wheel event whose `move_slice` call returns 0 changes
nothing but the collaborator's own state and performs no other action: no `get_slice`, no
`set_pixmap`, no notification; (2) a pointer-move with the primary button held on a captured
arm of a visible crosshair, in which no `move_slice` call returns 1 (`moved_v = 0` and
`moved_h = 0`), leaves the slice buffer and the displayable buffer unchanged, performs no
`get_slice`, and emits exactly one notification, the cursor-info `coord_info_sig` that every
pointer-move emits; if the hover flags computed for the pointer position equal the stored
ones it also performs no `set_pixmap` and leaves the crosshair geometry unchanged. -/
theorem move_slice_failure_effects (M : Libm) (ops : DataCube D) (w : Widget D)
    (hvalid : w.is_valid ≠ 0) :
    (∀ wheel_delta x y : Int,
      (ops.move_slice w.data_cube w.slice_type w.slice_type
        (if wheel_delta > 0 then 1 else -1)).1 = 0 →
      wheelEvent ops w wheel_delta x y =
        { w with
          data_cube := (ops.move_slice w.data_cube w.slice_type w.slice_type
            (if wheel_delta > 0 then 1 else -1)).2
          trace := w.trace ++ [Action.move_slice w.slice_type w.slice_type
            (if wheel_delta > 0 then 1 else -1)] }) ∧
    (∀ (x y : Int) (b : Buttons), b.left = true → w.is_line_visible = 1 →
      w.line_clicked_h + w.line_clicked_v > 0 →
      (drag_v M ops
        (move_hover M ops w (clamp_mouse_x w.slice_size x) (clamp_mouse_y w.slice_size y))
        (clamp_mouse_x w.slice_size x) (clamp_mouse_y w.slice_size y)).2 = 0 →
      (drag_h M ops (drag_v M ops
        (move_hover M ops w (clamp_mouse_x w.slice_size x) (clamp_mouse_y w.slice_size y))
        (clamp_mouse_x w.slice_size x) (clamp_mouse_y w.slice_size y)).1
        (clamp_mouse_x w.slice_size x) (clamp_mouse_y w.slice_size y)).2 = 0 →
      (mouseMoveEvent M ops w x y b).slice_data = w.slice_data ∧
      (mouseMoveEvent M ops w x y b).windowed_slice = w.windowed_slice ∧
      (∀ t, Action.get_slice t ∉ emitted w (mouseMoveEvent M ops w x y b)) ∧
      (∃ msg, (emitted w (mouseMoveEvent M ops w x y b)).filter Action.isSignal
        = [Action.coord_info_sig msg]) ∧
      (¬ hover_changed M w (clamp_mouse_x w.slice_size x) (clamp_mouse_y w.slice_size y) →
        Action.setPixmap ∉ emitted w (mouseMoveEvent M ops w x y b) ∧
        (∀ t, Action.get_line_info t ∉ emitted w (mouseMoveEvent M ops w x y b)) ∧
        (mouseMoveEvent M ops w x y b).line_x = w.line_x ∧
        (mouseMoveEvent M ops w x y b).line_y = w.line_y ∧
        (mouseMoveEvent M ops w x y b).line_angle_rad = w.line_angle_rad ∧
        (mouseMoveEvent M ops w x y b).line_x_scaled = w.line_x_scaled ∧
        (mouseMoveEvent M ops w x y b).line_y_scaled = w.line_y_scaled)) := by
  refine ⟨fun wd x y h0 => wheelEvent_not_moved ops w wd x y hvalid h0, ?_⟩
  intro x y b hleft hvis hcl hv hh
  obtain ⟨hsd, hws, ⟨cmds, hcmds, htr⟩, hgeo⟩ :=
    mouseMoveEvent_drag_not_moved M ops w x y b hvalid hleft hvis hcl hv hh
  have hem := emitted_append w _ _ htr
  refine ⟨hsd, hws, ?_, ?_, ?_⟩
  · intro t hmem
    rw [hem] at hmem
    simp only [List.mem_append, coord_actions, List.mem_cons, List.mem_singleton] at hmem
    rcases hmem with (h | h) | h
    · rcases mem_hover_actions M w _ _ _ h with h | h <;> cases h
    · have := hcmds _ h
      simp [Action.isMoveSlice] at this
    · simp at h
  · rw [hem, List.filter_append, List.filter_append, filter_isSignal_hover_actions,
      filter_isSignal_of_isMoveSlice cmds hcmds]
    simp only [coord_actions, List.nil_append, List.filter, Action.isSignal]
    exact ⟨_, rfl⟩
  · intro hnc
    refine ⟨?_, ?_, hgeo hnc⟩
    · intro hmem
      rw [hem, hover_actions_eq_nil M w _ _ hnc] at hmem
      simp only [List.nil_append, List.mem_append, coord_actions, List.mem_cons,
        List.mem_singleton] at hmem
      rcases hmem with h | h
      · have := hcmds _ h
        simp [Action.isMoveSlice] at this
      · simp at h
    · intro t hmem
      rw [hem, hover_actions_eq_nil M w _ _ hnc] at hmem
      simp only [List.nil_append, List.mem_append, coord_actions, List.mem_cons,
        List.mem_singleton] at hmem
      rcases hmem with h | h
      · have := hcmds _ h
        simp [Action.isMoveSlice] at this
      · simp at h


theorem capturedView_facts :
    capturedView.is_valid = 1 ∧ capturedView.is_line_visible = 1 ∧
    capturedView.line_clicked_v = 1 ∧ capturedView.line_clicked_h = 0 ∧
    capturedView.slice_size = 4 ∧ capturedView.slice_type = 0 ∧ capturedView.pixel_num = 2 ∧
    capturedView.rescale_slope = 1 ∧ capturedView.rescale_intercept = -1024 ∧
    capturedView.mouse_last_x = 0 ∧ capturedView.mouse_last_y = 0 ∧
    capturedView.line_angle_rad = 0 ∧ capturedView.trace = [] :=
  ⟨rfl, rfl, rfl, rfl, rfl, rfl, rfl, rfl, rfl, rfl, rfl, rfl, rfl⟩

theorem capturedView_moved (x y : Int) :
    (drag_v coarseLibm stillCube
      (move_hover coarseLibm stillCube capturedView (clamp_mouse_x capturedView.slice_size x)
        (clamp_mouse_y capturedView.slice_size y))
      (clamp_mouse_x capturedView.slice_size x) (clamp_mouse_y capturedView.slice_size y)).2 = 0 ∧
    (drag_h coarseLibm stillCube (drag_v coarseLibm stillCube
      (move_hover coarseLibm stillCube capturedView (clamp_mouse_x capturedView.slice_size x)
        (clamp_mouse_y capturedView.slice_size y))
      (clamp_mouse_x capturedView.slice_size x) (clamp_mouse_y capturedView.slice_size y)).1
      (clamp_mouse_x capturedView.slice_size x) (clamp_mouse_y capturedView.slice_size y)).2
      = 0 := by
  constructor
  · unfold drag_v; split_ifs <;> simp [stillCube]
  · unfold drag_h; split_ifs <;> simp [stillCube]

theorem coord_actions_capturedView :
    coord_actions stillCube
      (mouseMoveEvent coarseLibm stillCube capturedView 3 2 ⟨true, false, false⟩) 3 2
      = [Action.get_coord 0 1 1, Action.coord_info_sig (some (1, 1, 0, 0))] := by
  have h1 : coord_scaled 4 2 3 = 1 := by
    unfold coord_scaled
    rw [truncToInt_of_nonneg (by norm_num), Int.floor_eq_iff]
    norm_num
  have h2 : coord_scaled 4 2 2 = 1 := by
    unfold coord_scaled
    rw [truncToInt_of_nonneg (by norm_num), Int.floor_eq_iff]
    norm_num
  have h3 : truncToInt (1 * (((1024 : Int)) : ℚ) + -1024) = 0 := by
    rw [truncToInt_of_nonneg (by norm_num), Int.floor_eq_iff]
    norm_num
  obtain ⟨_, _, _, _, hsz, hst, hpn, hrs, hri, _, _, _, _⟩ := capturedView_facts
  simp only [coord_actions, mouseMoveEvent_frame, hsz, hst, hpn, hrs, hri, h1, h2]
  simp only [stillCube, h3]

/-- C9 (as stated, refuted): on `capturedView` (valid, crosshair visible, vertical arm
captured) over the collaborator `stillCube`, whose `move_slice` returns 0, a pointer-move to
`(3, 2)` with the primary button held has `moved_v = 0` and `moved_h = 0` and still emits the
notification `coord_info_sig` (with payload `(1, 1, 0, 0)`). -/
theorem drag_not_moved_still_notifies :
    (drag_v coarseLibm stillCube
      (move_hover coarseLibm stillCube capturedView (clamp_mouse_x capturedView.slice_size 3)
        (clamp_mouse_y capturedView.slice_size 2))
      (clamp_mouse_x capturedView.slice_size 3) (clamp_mouse_y capturedView.slice_size 2)).2 = 0 ∧
    (drag_h coarseLibm stillCube (drag_v coarseLibm stillCube
      (move_hover coarseLibm stillCube capturedView (clamp_mouse_x capturedView.slice_size 3)
        (clamp_mouse_y capturedView.slice_size 2))
      (clamp_mouse_x capturedView.slice_size 3) (clamp_mouse_y capturedView.slice_size 2)).1
      (clamp_mouse_x capturedView.slice_size 3) (clamp_mouse_y capturedView.slice_size 2)).2
      = 0 ∧
    Action.coord_info_sig (some (1, 1, 0, 0)) ∈
      emitted capturedView
        (mouseMoveEvent coarseLibm stillCube capturedView 3 2 ⟨true, false, false⟩) := by
  obtain ⟨hv, hh⟩ := capturedView_moved 3 2
  refine ⟨hv, hh, ?_⟩
  obtain ⟨_, _, ⟨cmds, _, htr⟩, _⟩ :=
    mouseMoveEvent_drag_not_moved coarseLibm stillCube capturedView 3 2 ⟨true, false, false⟩
      (by decide) rfl rfl (by decide) hv hh
  rw [emitted_append _ _ _ htr]
  have h3 : clamp_mouse_x capturedView.slice_size 3 = 3 := by decide
  have h2 : clamp_mouse_y capturedView.slice_size 2 = 2 := by decide
  rw [h3, h2, coord_actions_capturedView]
  simp

/-- A witness of the failure effects on `capturedView` over `stillCube`: a wheel event with
delta 120 and a primary-button move to `(3, 2)`. -/
theorem move_slice_failure_effects_witness :
    capturedView.is_valid ≠ 0 ∧
    wheelEvent stillCube capturedView 120 0 0 =
      { capturedView with
        data_cube := (stillCube.move_slice capturedView.data_cube capturedView.slice_type
          capturedView.slice_type (if (120 : Int) > 0 then 1 else -1)).2
        trace := capturedView.trace ++ [Action.move_slice capturedView.slice_type
          capturedView.slice_type (if (120 : Int) > 0 then 1 else -1)] } ∧
    (mouseMoveEvent coarseLibm stillCube capturedView 3 2 ⟨true, false, false⟩).slice_data
      = capturedView.slice_data ∧
    (mouseMoveEvent coarseLibm stillCube capturedView 3 2 ⟨true, false, false⟩).windowed_slice
      = capturedView.windowed_slice :=
  ⟨by decide,
    (move_slice_failure_effects coarseLibm stillCube capturedView (by decide)).1 120 0 0 rfl,
    ((move_slice_failure_effects coarseLibm stillCube capturedView (by decide)).2 3 2
      ⟨true, false, false⟩ rfl rfl (by decide) (capturedView_moved 3 2).1
      (capturedView_moved 3 2).2).1,
    ((move_slice_failure_effects coarseLibm stillCube capturedView (by decide)).2 3 2
      ⟨true, false, false⟩ rfl rfl (by decide) (capturedView_moved 3 2).1
      (capturedView_moved 3 2).2).2.1⟩

/-- C10 (amended): on a valid view with the crosshair visible, `line_clicked_v = 1` and
`line_clicked_h = 0`, a pointer-move with the primary button held issues exactly one
`move_slice` command, whatever the displacement `d` is (zero included); its axis argument
differs from the view's `slice_type`; and the event emits `line_moved_sig(0)` if and only if
that command returns 1, and no `line_moved_sig` with another tag. -/
theorem drag_vertical_arm (M : Libm) (ops : DataCube D) (w : Widget D) (x y : Int)
    (b : Buttons) (hvalid : w.is_valid ≠ 0) (hvis : w.is_line_visible = 1)
    (hv : w.line_clicked_v = 1) (hh : w.line_clicked_h = 0) (hleft : b.left = true) :
    (emitted w (mouseMoveEvent M ops w x y b)).filter Action.isMoveSlice
      = [Action.move_slice w.slice_type (axis_v w.slice_type)
          (drag_d_v M (move_hover M ops w (clamp_mouse_x w.slice_size x)
            (clamp_mouse_y w.slice_size y)) (clamp_mouse_x w.slice_size x)
            (clamp_mouse_y w.slice_size y))] ∧
    axis_v w.slice_type ≠ w.slice_type ∧
    (Action.line_moved_sig 0 ∈ emitted w (mouseMoveEvent M ops w x y b) ↔
      (ops.move_slice w.data_cube w.slice_type (axis_v w.slice_type)
        (drag_d_v M (move_hover M ops w (clamp_mouse_x w.slice_size x)
          (clamp_mouse_y w.slice_size y)) (clamp_mouse_x w.slice_size x)
          (clamp_mouse_y w.slice_size y))).1 = 1) ∧
    (∀ k, Action.line_moved_sig k ∈ emitted w (mouseMoveEvent M ops w x y b) → k = 0) := by
  have htr := mouseMoveEvent_drag_v_trace M ops w x y b hvalid hvis hv hh hleft
  rw [emitted_append w _ _ htr]
  refine ⟨?_, axis_v_ne _, ?_, ?_⟩
  · unfold hover_actions redraw_actions coord_actions
    split_ifs <;> simp [Action.isMoveSlice]
  · unfold hover_actions redraw_actions coord_actions
    split_ifs <;> simp_all
  · intro k
    unfold hover_actions redraw_actions coord_actions
    split_ifs <;> simp


theorem move_hover_capturedView_angle (mx my : Int) :
    (move_hover coarseLibm stillCube capturedView mx my).line_angle_rad = 0 := by
  unfold move_hover
  split_ifs
  · rw [set_pixmap_eq]
    simp only [stillCube]
    split_ifs <;> rfl
  · rfl

/-- C10 (as stated, refuted): on `capturedView` (valid, crosshair visible,
`line_clicked_v = 1`, `line_clicked_h = 0`, last pointer position `(0, 0)`) over `stillCube`,
a pointer-move to `(1, 0)` with the primary button held has a non-zero displacement `d`, and
the event does not emit `line_moved_sig(0)`, because the `move_slice` command returned 0. -/
theorem drag_vertical_arm_at_boundary :
    (capturedView.is_valid = 1 ∧ capturedView.is_line_visible = 1 ∧
      capturedView.line_clicked_v = 1 ∧ capturedView.line_clicked_h = 0) ∧
    drag_d_v coarseLibm
      (move_hover coarseLibm stillCube capturedView (clamp_mouse_x capturedView.slice_size 1)
        (clamp_mouse_y capturedView.slice_size 0))
      (clamp_mouse_x capturedView.slice_size 1) (clamp_mouse_y capturedView.slice_size 0) ≠ 0 ∧
    Action.line_moved_sig 0 ∉
      emitted capturedView
        (mouseMoveEvent coarseLibm stillCube capturedView 1 0 ⟨true, false, false⟩) := by
  refine ⟨⟨rfl, rfl, rfl, rfl⟩, ?_, ?_⟩
  · have h1 : clamp_mouse_x capturedView.slice_size 1 = 1 := by decide
    have h0 : clamp_mouse_y capturedView.slice_size 0 = 0 := by decide
    obtain ⟨_, _, _, _, hsz, _, hpn, _, _, hlx, hly, _, _⟩ := capturedView_facts
    rw [h1, h0]
    unfold drag_d_v
    simp only [move_hover_frame, move_hover_capturedView_angle, hsz, hpn, hlx, hly]
    norm_num [coarseLibm, PI]
  · have htr := mouseMoveEvent_drag_v_trace coarseLibm stillCube capturedView 1 0
      ⟨true, false, false⟩ (by decide) rfl rfl rfl rfl
    rw [emitted_append _ _ _ htr]
    unfold hover_actions redraw_actions coord_actions
    split_ifs <;> simp_all [stillCube]

/-- A witness of the vertical-arm drag: `capturedView` over `stillCube`, a pointer-move to
`(1, 0)` with the primary button held. -/
theorem drag_vertical_arm_witness :
    (capturedView.is_valid ≠ 0 ∧ capturedView.is_line_visible = 1 ∧
      capturedView.line_clicked_v = 1 ∧ capturedView.line_clicked_h = 0) ∧
    (emitted capturedView
        (mouseMoveEvent coarseLibm stillCube capturedView 1 0 ⟨true, false, false⟩)).filter
        Action.isMoveSlice
      = [Action.move_slice capturedView.slice_type (axis_v capturedView.slice_type)
          (drag_d_v coarseLibm (move_hover coarseLibm stillCube capturedView
            (clamp_mouse_x capturedView.slice_size 1) (clamp_mouse_y capturedView.slice_size 0))
            (clamp_mouse_x capturedView.slice_size 1)
            (clamp_mouse_y capturedView.slice_size 0))] ∧
    axis_v capturedView.slice_type ≠ capturedView.slice_type :=
  ⟨⟨by decide, rfl, rfl, rfl⟩,
    (drag_vertical_arm coarseLibm stillCube capturedView 1 0 ⟨true, false, false⟩ (by decide)
      rfl rfl rfl rfl).1,
    (drag_vertical_arm coarseLibm stillCube capturedView 1 0 ⟨true, false, false⟩ (by decide)
      rfl rfl rfl rfl).2.1⟩



/-! ## Invalid views -/

/-- C11: on a view with `is_valid = 0`, each of the six interaction handlers (leave, press,
release, double-click, wheel, move), with any event payload, returns the view as it was:
every member is unchanged and the trace is unchanged, so no command is issued to the
collaborator and no notification is emitted. -/
theorem invalid_view_short_circuit (M : Libm) (ops : DataCube D) (w : Widget D)
    (hinvalid : w.is_valid = 0) :
    leaveEvent ops w = w ∧
    (∀ x y : Int, mousePressEvent M w x y = w) ∧
    mouseReleaseEvent w = w ∧
    (∀ x y : Int, mouseDoubleClickEvent ops w x y = w) ∧
    (∀ wheel_delta x y : Int, wheelEvent ops w wheel_delta x y = w) ∧
    (∀ (x y : Int) (b : Buttons), mouseMoveEvent M ops w x y b = w) := by
  refine ⟨?_, ?_, ?_, ?_, ?_, ?_⟩
  · unfold leaveEvent; rw [if_pos hinvalid]
  · intro x y; unfold mousePressEvent; rw [if_pos hinvalid]
  · unfold mouseReleaseEvent; rw [if_pos hinvalid]
  · intro x y; unfold mouseDoubleClickEvent; rw [if_pos hinvalid]
  · intro wd x y; unfold wheelEvent; rw [if_pos hinvalid]
  · intro x y b; unfold mouseMoveEvent; rw [if_pos hinvalid]

/-- A witness of the short circuit: `blankView`, the view before `set_data`, with a
primary-button move to `(3, 2)` and a wheel event with delta 120. -/
theorem invalid_view_short_circuit_witness :
    blankView.is_valid = 0 ∧
    leaveEvent stillCube blankView = blankView ∧
    mouseReleaseEvent blankView = blankView ∧
    wheelEvent stillCube blankView 120 0 0 = blankView ∧
    mouseMoveEvent coarseLibm stillCube blankView 3 2 ⟨true, false, false⟩ = blankView :=
  ⟨rfl, (invalid_view_short_circuit coarseLibm stillCube blankView rfl).1,
    (invalid_view_short_circuit coarseLibm stillCube blankView rfl).2.2.1,
    (invalid_view_short_circuit coarseLibm stillCube blankView rfl).2.2.2.2.1 120 0 0,
    (invalid_view_short_circuit coarseLibm stillCube blankView rfl).2.2.2.2.2 3 2
      ⟨true, false, false⟩⟩

/-! ## Arm-to-axis mapping and pen colours -/

/-- C14: for every `slice_type` in `{0, 1, 2}`, the axis moved by dragging the vertical arm
and the axis moved by dragging the horizontal arm are distinct, both differ from
`slice_type`, and both lie in `{0, 1, 2}`: together they are the other two axes. -/
theorem arm_axes_are_the_other_two (slice_type : Int)
    (h : slice_type = 0 ∨ slice_type = 1 ∨ slice_type = 2) :
    axis_v slice_type ≠ axis_h slice_type ∧
    axis_v slice_type ≠ slice_type ∧ axis_h slice_type ≠ slice_type ∧
    (axis_v slice_type = 0 ∨ axis_v slice_type = 1 ∨ axis_v slice_type = 2) ∧
    (axis_h slice_type = 0 ∨ axis_h slice_type = 1 ∨ axis_h slice_type = 2) := by
  rcases h with h | h | h <;> subst h <;> decide

/-- A witness of the arm-to-axis mapping: slice type 1. -/
theorem arm_axes_are_the_other_two_witness :
    ((1 : Int) = 0 ∨ (1 : Int) = 1 ∨ (1 : Int) = 2) ∧
    axis_v 1 ≠ axis_h 1 ∧ axis_v 1 ≠ 1 ∧ axis_h 1 ≠ 1 :=
  ⟨by decide, (arm_axes_are_the_other_two 1 (by decide)).1,
    (arm_axes_are_the_other_two 1 (by decide)).2.1,
    (arm_axes_are_the_other_two 1 (by decide)).2.2.1⟩

/-- C16: for every view whose `slice_type` is in `{0, 1, 2}`, whatever its hover and capture
flags, the colour of the pen `set_pixmap` uses for each arm is the colour of the axis that
dragging that arm moves in `mouseMoveEvent`, under the fixed convention axis 0 red, axis 1
green, axis 2 blue. -/
theorem pen_colour_of_axis (w : Widget D)
    (h : w.slice_type = 0 ∨ w.slice_type = 1 ∨ w.slice_type = 2) :
    (pen_v w).1 = axis_color (axis_v w.slice_type) ∧
    (pen_h w).1 = axis_color (axis_h w.slice_type) := by
  unfold pen_v pen_h
  rcases h with h | h | h <;> rw [h] <;> constructor <;> split_ifs <;> first | rfl | omega

/-- A witness of the colour convention: `capturedView` (slice type 0) draws its vertical arm
green and its horizontal arm blue. -/
theorem pen_colour_of_axis_witness :
    (capturedView.slice_type = 0 ∨ capturedView.slice_type = 1 ∨ capturedView.slice_type = 2) ∧
    (pen_v capturedView).1 = PenColor.green ∧ (pen_h capturedView).1 = PenColor.blue :=
  ⟨Or.inl rfl, (pen_colour_of_axis capturedView (Or.inl rfl)).1,
    (pen_colour_of_axis capturedView (Or.inl rfl)).2⟩


/-! ## Floating-point rounding -/

theorem roundHalfEven_error (q : ℚ) : |(roundHalfEven q : ℚ) - q| ≤ 1 / 2 := by
  have h1 := Int.floor_le q
  have h2 := Int.lt_floor_add_one q
  unfold roundHalfEven
  split_ifs with ha hb hc
  · rw [abs_le]; constructor <;> linarith
  · rw [abs_le]; push_cast; constructor <;> linarith
  · rw [abs_le]; push_neg at ha hb; constructor <;> linarith
  · rw [abs_le]; push_neg at ha hb; push_cast; constructor <;> linarith

theorem roundHalfEven_eq (q : ℚ) (m : Int) (h1 : (m : ℚ) - 1 / 2 < q) (h2 : q < m + 1 / 2) :
    roundHalfEven q = m := by
  have hf1 := Int.floor_le q
  have hf2 := Int.lt_floor_add_one q
  have hlo : m - 1 ≤ ⌊q⌋ := by
    rw [Int.le_floor]; push_cast; linarith
  have hhi : ⌊q⌋ ≤ m := by
    have : ((⌊q⌋ : Int) : ℚ) < m + 1 := by linarith
    have : ⌊q⌋ < m + 1 := by exact_mod_cast this
    omega
  unfold roundHalfEven
  rcases (by omega : ⌊q⌋ = m ∨ ⌊q⌋ = m - 1) with h | h
  · rw [h, if_pos (by linarith)]
  · rw [h]
    have : ¬ (q - ((m - 1 : Int) : ℚ) < 1 / 2) := by push_cast; linarith
    rw [if_neg this, if_pos (by push_cast; linarith)]
    ring

theorem roundHalfEven_tie (f : Int) (hf : f % 2 = 0) : roundHalfEven ((f : ℚ) + 1 / 2) = f := by
  have hfl : ⌊(f : ℚ) + 1 / 2⌋ = f := by
    rw [Int.floor_eq_iff]; constructor <;> linarith
  unfold roundHalfEven
  rw [hfl]
  rw [if_neg (by linarith), if_neg (by linarith), if_pos hf]

theorem roundBinary_error (p : Nat) (emin n : Int) (x : ℚ) (hx : |x| < (2 : ℚ) ^ n)
    (hemin : emin ≤ n - p) : |roundBinary p emin x - x| ≤ (2 : ℚ) ^ (n - p) / 2 := by
  have h2 : (0 : ℚ) < 2 ^ (n - (p : Int)) := by positivity
  unfold roundBinary
  split_ifs with h0
  · rw [h0]; simp; positivity
  · have hpos : 0 < |x| := abs_pos.2 h0
    have hlog : Int.log 2 |x| < n := by
      rw [← Int.lt_zpow_iff_log_lt (by norm_num) hpos]
      exact_mod_cast hx
    set e := max (Int.log 2 |x| - ((p : Int) - 1)) emin with he
    have hen : e ≤ n - p := max_le (by omega) hemin
    have hepos : (0 : ℚ) < 2 ^ e := by positivity
    have hle : (2 : ℚ) ^ e ≤ 2 ^ (n - (p : Int)) := zpow_le_zpow_right₀ (by norm_num) hen
    have herr := roundHalfEven_error (x / 2 ^ e)
    have key : (roundHalfEven (x / 2 ^ e) : ℚ) * 2 ^ e - x
        = ((roundHalfEven (x / 2 ^ e) : ℚ) - x / 2 ^ e) * 2 ^ e := by
      field_simp
    rw [key, abs_mul, abs_of_pos hepos]
    calc |(roundHalfEven (x / 2 ^ e) : ℚ) - x / 2 ^ e| * 2 ^ e
        ≤ 1 / 2 * 2 ^ e := mul_le_mul_of_nonneg_right herr hepos.le
      _ ≤ 1 / 2 * 2 ^ (n - (p : Int)) := by linarith
      _ = 2 ^ (n - (p : Int)) / 2 := by ring

theorem roundBinary_eval (p : Nat) (emin e : Int) (x : ℚ) (m : Int)
    (hlo : (2 : ℚ) ^ (e + p - 1) ≤ |x|) (hhi : |x| < (2 : ℚ) ^ (e + p)) (hemin : emin ≤ e)
    (hm : roundHalfEven (x / (2 : ℚ) ^ e) = m) :
    roundBinary p emin x = (m : ℚ) * (2 : ℚ) ^ e := by
  have hpos : 0 < |x| := lt_of_lt_of_le (by positivity) hlo
  have h0 : x ≠ 0 := abs_pos.1 hpos
  have hlog1 : e + p - 1 ≤ Int.log 2 |x| := by
    rw [← Int.zpow_le_iff_le_log (by norm_num) hpos]
    exact_mod_cast hlo
  have hlog2 : Int.log 2 |x| < e + p := by
    rw [← Int.lt_zpow_iff_log_lt (by norm_num) hpos]
    exact_mod_cast hhi
  have hlog : Int.log 2 |x| - ((p : Int) - 1) = e := by omega
  unfold roundBinary
  rw [if_neg h0, hlog, max_eq_left hemin, hm]

theorem roundBinary_eval_pos (p : Nat) (emin e : Int) (x : ℚ) (m : Int)
    (hlo : (2 : ℚ) ^ (e + p - 1) ≤ x) (hhi : x < (2 : ℚ) ^ (e + p)) (hemin : emin ≤ e)
    (hm : roundHalfEven (x / (2 : ℚ) ^ e) = m) :
    roundBinary p emin x = (m : ℚ) * (2 : ℚ) ^ e := by
  have hpos : 0 < x := lt_of_lt_of_le (by positivity) hlo
  apply roundBinary_eval p emin e x m _ _ hemin hm
  · rwa [abs_of_pos hpos]
  · rwa [abs_of_pos hpos]

theorem roundBinary_eval_neg (p : Nat) (emin e : Int) (x : ℚ) (m : Int)
    (hlo : (2 : ℚ) ^ (e + p - 1) ≤ -x) (hhi : -x < (2 : ℚ) ^ (e + p)) (hemin : emin ≤ e)
    (hm : roundHalfEven (x / (2 : ℚ) ^ e) = m) :
    roundBinary p emin x = (m : ℚ) * (2 : ℚ) ^ e := by
  have hpos : 0 < -x := lt_of_lt_of_le (by positivity) hlo
  apply roundBinary_eval p emin e x m _ _ hemin hm
  · rwa [abs_of_neg (by linarith)]
  · rwa [abs_of_neg (by linarith)]

theorem PI_pos : (0 : ℚ) < PI := by norm_num [PI]

theorem toFloat_error (x : ℚ) (hx : |x| < 8) : |toFloat x - x| ≤ 1 / 4194304 := by
  have h := roundBinary_error 24 (-149) 3 x (by norm_num; exact hx) (by norm_num)
  unfold toFloat
  norm_num at h ⊢
  exact h

theorem toDouble_error (x : ℚ) (hx : |x| < 8) :
    |toDouble x - x| ≤ 1 / 2251799813685248 := by
  have h := roundBinary_error 53 (-1074) 3 x (by norm_num; exact hx) (by norm_num)
  unfold toDouble
  norm_num at h ⊢
  exact h

theorem toFloat_toDouble_error (y : ℚ) (hy : |y| ≤ 7) :
    |toFloat (toDouble y) - y| ≤ 1 / 4194304 + 1 / 2251799813685248 := by
  have h1 := toDouble_error y (by linarith)
  have h2 : |toDouble y| < 8 := by
    have := abs_sub_abs_le_abs_sub (toDouble y) y
    linarith
  have h3 := toFloat_error (toDouble y) h2
  have h4 := abs_add (toFloat (toDouble y) - toDouble y) (toDouble y - y)
  have e : toFloat (toDouble y) - toDouble y + (toDouble y - y) = toFloat (toDouble y) - y := by
    ring
  rw [e] at h4
  linarith

theorem PI_double_error : |PI_double - PI| ≤ 1 / 2251799813685248 :=
  toDouble_error PI (by norm_num [PI, abs_of_pos])

/-! ## Angle arithmetic -/

/-- A value within `PI / 2` of `x` that is a multiple of `PI` away from it realises the
distance from `x` to the nearest integer multiple of `PI`. -/
theorem nearest_multiple_of_PI (x d : ℚ) (k : Int) (hd : d = |x - (k : ℚ) * PI|)
    (hle : d ≤ PI / 2) (j : Int) : d ≤ |x - (j : ℚ) * PI| := by
  have hP := PI_pos
  by_cases hjk : j = k
  · rw [hjk, hd]
  · have hne : (1 : ℚ) ≤ |((k - j : Int) : ℚ)| := by
      have : (1 : Int) ≤ |k - j| := Int.one_le_abs (sub_ne_zero.2 (Ne.symm hjk))
      exact_mod_cast this
    have hmul : PI ≤ |((k - j : Int) : ℚ) * PI| := by
      rw [abs_mul, abs_of_pos hP]
      nlinarith
    have hsplit : x - (j : ℚ) * PI = (x - (k : ℚ) * PI) + ((k - j : Int) : ℚ) * PI := by
      push_cast; ring
    have htri : |((k - j : Int) : ℚ) * PI| ≤ |x - (j : ℚ) * PI| + |x - (k : ℚ) * PI| := by
      have h := abs_sub (x - (j : ℚ) * PI) (x - (k : ℚ) * PI)
      have e : x - (j : ℚ) * PI - (x - (k : ℚ) * PI) = ((k - j : Int) : ℚ) * PI := by
        push_cast; ring
      rw [e] at h
      exact h
    rw [← hd] at htri
    linarith

/-- For `|x| < 2 * PI` some integer multiple of `PI` lies within `PI / 2` of `x`, and the
distance to it is one of four expressions in `|x|`. -/
theorem exists_multiple_within_half_PI (x : ℚ) (hx : |x| < 2 * PI) :
    ∃ k : Int, |x - (k : ℚ) * PI| ≤ PI / 2 ∧
      (|x - (k : ℚ) * PI| = |x| ∨ |x - (k : ℚ) * PI| = PI - |x|
        ∨ |x - (k : ℚ) * PI| = |x| - PI ∨ |x - (k : ℚ) * PI| = 2 * PI - |x|) := by
  have hP := PI_pos
  obtain ⟨hx1, hx2⟩ := abs_lt.1 hx
  by_cases h1 : x < -(3 * PI / 2)
  · refine ⟨-2, ?_, Or.inr (Or.inr (Or.inr ?_))⟩
    · rw [abs_le]; push_cast; constructor <;> linarith
    · rw [abs_of_neg (by linarith : x < 0), abs_of_nonneg (by push_cast; linarith)]
      push_cast; ring
  · by_cases h2 : x < -(PI / 2)
    · refine ⟨-1, ?_, ?_⟩
      · rw [abs_le]; push_cast; constructor <;> linarith
      · rw [abs_of_neg (by linarith : x < 0)]
        by_cases h : x < -PI
        · refine Or.inr (Or.inr (Or.inl ?_))
          rw [abs_of_nonpos (by push_cast; linarith)]
          push_cast; ring
        · refine Or.inr (Or.inl ?_)
          rw [abs_of_nonneg (by push_cast; linarith)]
          push_cast; ring
    · by_cases h3 : x ≤ PI / 2
      · refine ⟨0, ?_, Or.inl (by simp)⟩
        rw [abs_le]; push_cast; constructor <;> linarith
      · by_cases h4 : x ≤ 3 * PI / 2
        · refine ⟨1, ?_, ?_⟩
          · rw [abs_le]; push_cast; constructor <;> linarith
          · rw [abs_of_pos (by linarith : 0 < x)]
            by_cases h : x < PI
            · refine Or.inr (Or.inl ?_)
              rw [abs_of_nonpos (by push_cast; linarith)]
              push_cast; ring
            · refine Or.inr (Or.inr (Or.inl ?_))
              rw [abs_of_nonneg (by push_cast; linarith)]
              push_cast; ring
        · refine ⟨2, ?_, Or.inr (Or.inr (Or.inr ?_))⟩
          · rw [abs_le]; push_cast; constructor <;> linarith
          · rw [abs_of_pos (by linarith : 0 < x), abs_of_nonpos (by push_cast; linarith)]
            push_cast; ring

set_option maxHeartbeats 4000000 in
/-- The facts about the folded angle that the bounds are derived from: it lies within the
rounding error of `[0, PI / 2]`, and within `10⁻⁶` of any of four expressions in
`|line_angle_rad - mouse_angle_rad|` that lies in `[0, PI / 2]`. -/
theorem angle_diff_h_bounds (l m : ℚ) (hl0 : 0 ≤ l) (hl : l < 2 * PI) (hm0 : 0 ≤ m)
    (hm : m < 2 * PI) :
    (-(1 / 2000000) ≤ angle_diff_h l m ∧ angle_diff_h l m ≤ PI / 2 + 1 / 4000000) ∧
    ∀ d : ℚ, 0 ≤ d → d ≤ PI / 2 →
      (d = |l - m| ∨ d = PI - |l - m| ∨ d = |l - m| - PI ∨ d = 2 * PI - |l - m|) →
      |angle_diff_h l m - d| ≤ 1 / 1000000 := by
  have hPd := abs_le.1 PI_double_error
  have hPv : PI = 3141592 / 1000000 := rfl
  have hs : |l - m| < 2 * PI := by rw [abs_lt]; constructor <;> linarith
  have hs0 : 0 ≤ |l - m| := abs_nonneg _
  have e0 := toFloat_error (l - m) (by linarith)
  have ht0 : |abs (toFloat (l - m)) - abs (l - m)| ≤ 1 / 4194304 :=
    le_trans (abs_abs_sub_abs_le_abs_sub _ _) e0
  have ht0n : 0 ≤ |toFloat (l - m)| := abs_nonneg _
  obtain ⟨ht0a, ht0b⟩ := abs_le.1 ht0
  have e1 := abs_le.1 (toFloat_toDouble_error (2 * PI_double - |toFloat (l - m)|)
    (by rw [abs_le]; constructor <;> linarith))
  have e2 := abs_le.1 (toFloat_toDouble_error (PI_double - |toFloat (l - m)|)
    (by rw [abs_le]; constructor <;> linarith))
  have e3 := abs_le.1 (toFloat_toDouble_error
    (PI_double - toFloat (toDouble (2 * PI_double - |toFloat (l - m)|)))
    (by rw [abs_le]; constructor <;> linarith))
  clear e0 ht0 hl0 hl hm0 hm
  generalize |l - m| = y at *
  generalize hr3 : toFloat (toDouble
    (PI_double - toFloat (toDouble (2 * PI_double - |toFloat (l - m)|)))) = r3 at *
  generalize hr2 : toFloat (toDouble (PI_double - |toFloat (l - m)|)) = r2 at *
  generalize hr1 : toFloat (toDouble (2 * PI_double - |toFloat (l - m)|)) = r1 at *
  generalize ht : |toFloat (l - m)| = t0 at *
  have hh : angle_diff_h l m
      = if (if t0 > PI_double then r1 else t0) > PI_double / 2 then
          (if t0 > PI_double then r3 else r2)
        else (if t0 > PI_double then r1 else t0) := by
    unfold angle_diff_h
    simp only [ht, hr1]
    split_ifs <;> first | rfl | exact hr3 | exact hr2
  rw [hh]
  clear hh hr1 hr2 hr3 ht
  generalize PI_double = P at *
  generalize PI = Q at *
  subst hPv
  obtain ⟨e1a, e1b⟩ := e1
  obtain ⟨e2a, e2b⟩ := e2
  obtain ⟨e3a, e3b⟩ := e3
  obtain ⟨hPa, hPb⟩ := hPd
  constructor
  · split_ifs <;> constructor <;> linarith
  · intro d hd0 hd1 hd
    rcases hd with hd | hd | hd | hd <;> subst hd <;> split_ifs <;> rw [abs_le] <;>
      constructor <;> linarith

set_option maxHeartbeats 4000000 in
/-- The facts about the rotation argument that the bounds are derived from. -/
theorem rotation_delta_bounds (a b : ℚ) (ha0 : 0 ≤ a) (ha : a < 2 * PI) (hb0 : 0 ≤ b)
    (hb : b < 2 * PI) :
    (-(PI + 1 / 1000000) ≤ rotation_delta a b ∧ rotation_delta a b ≤ PI + 1 / 1000000) ∧
    ((-(1 / 1000000) ≤ rotation_delta a b - (a - b) + 2 * PI
        ∧ rotation_delta a b - (a - b) + 2 * PI ≤ 1 / 1000000)
      ∨ (-(1 / 1000000) ≤ rotation_delta a b - (a - b)
        ∧ rotation_delta a b - (a - b) ≤ 1 / 1000000)
      ∨ (-(1 / 1000000) ≤ rotation_delta a b - (a - b) - 2 * PI
        ∧ rotation_delta a b - (a - b) - 2 * PI ≤ 1 / 1000000)) := by
  have hPd := abs_le.1 PI_double_error
  have hPv : PI = 3141592 / 1000000 := rfl
  have hs : |a - b| < 2 * PI := by rw [abs_lt]; constructor <;> linarith
  obtain ⟨hs1, hs2⟩ := abs_lt.1 hs
  have e0 := toFloat_error (a - b) (by linarith)
  obtain ⟨e0a, e0b⟩ := abs_le.1 e0
  have ht0 : |abs (toFloat (a - b)) - abs (a - b)| ≤ 1 / 4194304 :=
    le_trans (abs_abs_sub_abs_le_abs_sub _ _) e0
  have ht0n : 0 ≤ |toFloat (a - b)| := abs_nonneg _
  obtain ⟨ht0a, ht0b⟩ := abs_le.1 ht0
  have hs0 : 0 ≤ |a - b| := abs_nonneg _
  have e1 := abs_le.1 (toFloat_toDouble_error (2 * PI_double - |toFloat (a - b)|)
    (by rw [abs_le]; constructor <;> linarith))
  have e4 : toFloat (a - b) < 0 →
      -(1 / 4194304 + 1 / 2251799813685248)
          ≤ toFloat (toDouble (toFloat (a - b) + 2 * PI_double))
            - (toFloat (a - b) + 2 * PI_double) ∧
        toFloat (toDouble (toFloat (a - b) + 2 * PI_double))
            - (toFloat (a - b) + 2 * PI_double)
          ≤ 1 / 4194304 + 1 / 2251799813685248 := by
    intro hneg
    exact abs_le.1 (toFloat_toDouble_error (toFloat (a - b) + 2 * PI_double)
      (by rw [abs_le]; constructor <;> linarith))
  have hsign : |toFloat (a - b)| = toFloat (a - b) ∧ 0 ≤ toFloat (a - b)
      ∨ |toFloat (a - b)| = -toFloat (a - b) ∧ toFloat (a - b) < 0 := abs_cases _
  clear e0 ht0 hs ha0 ha hb0 hb ht0a ht0b hs0
  generalize hr4 : toFloat (toDouble (toFloat (a - b) + 2 * PI_double)) = r4 at *
  generalize hr1 : toFloat (toDouble (2 * PI_double - |toFloat (a - b)|)) = r1 at *
  generalize ht : |toFloat (a - b)| = t0 at *
  generalize hf : toFloat (a - b) = f0 at *
  have hh : rotation_delta a b
      = (if t0 > PI_double then r1 else t0)
        * (if (if f0 < 0 then r4 else f0) < PI_double then 1 else -1) := by
    unfold rotation_delta
    simp only [ht, hr1, hf, hr4]
  rw [hh]
  clear hh hr1 hr4 ht hf
  generalize PI_double = P at *
  generalize PI = Q at *
  subst hPv
  generalize a - b = s at *
  obtain ⟨e1a, e1b⟩ := e1
  obtain ⟨hPa, hPb⟩ := hPd
  rcases hsign with ⟨hab, hsg⟩ | ⟨hab, hsg⟩
  · have hn : ¬ f0 < 0 := not_lt.2 hsg
    simp only [if_neg hn]
    constructor
    · split_ifs <;> constructor <;> linarith
    · split_ifs <;> first
        | (left; constructor <;> linarith)
        | (right; left; constructor <;> linarith)
  · obtain ⟨e4a, e4b⟩ := e4 hsg
    simp only [if_pos hsg]
    constructor
    · split_ifs <;> constructor <;> linarith
    · split_ifs <;> first
        | (left; constructor <;> linarith)
        | (right; left; constructor <;> linarith)
        | (right; right; constructor <;> linarith)

/-! ### Evaluation of the rounding on the counterexample inputs -/

theorem PI_double_eq : PI_double = 3537118140137533 / 1125899906842624 := by
  unfold PI_double toDouble
  rw [roundBinary_eval_pos 53 (-1074) (-51) PI 7074236280275066 (by norm_num [PI])
    (by norm_num [PI]) (by norm_num)
    (roundHalfEven_eq _ _ (by norm_num [PI]) (by norm_num [PI]))]
  norm_num

theorem toFloat_PI : toFloat PI = floatPI := by
  unfold toFloat floatPI
  rw [roundBinary_eval_pos 24 (-149) (-22) PI 13176792 (by norm_num [PI]) (by norm_num [PI])
    (by norm_num) (roundHalfEven_eq _ _ (by norm_num [PI]) (by norm_num [PI]))]
  norm_num

theorem toFloat_floatPI : toFloat floatPI = floatPI := by
  unfold toFloat floatPI
  rw [roundBinary_eval_pos 24 (-149) (-22) _ 13176792 (by norm_num) (by norm_num)
    (by norm_num) (roundHalfEven_eq _ _ (by norm_num) (by norm_num))]
  norm_num

theorem toFloat_neg_floatPI : toFloat (-floatPI) = -floatPI := by
  unfold toFloat floatPI
  rw [roundBinary_eval_neg 24 (-149) (-22) _ (-13176792) (by norm_num) (by norm_num)
    (by norm_num) (roundHalfEven_eq _ _ (by norm_num) (by norm_num))]
  norm_num

/-- The first fold at `floatPI`: `2 * PI - angle` is stored as `floatPI` again. -/
theorem fold_two_PI_floatPI : toFloat (toDouble (2 * PI_double - floatPI)) = floatPI := by
  have hd : toDouble (2 * PI_double - floatPI) = 1768559055568957 / 562949953421312 := by
    unfold toDouble
    rw [PI_double_eq, floatPI]
    rw [roundBinary_eval_pos 53 (-1074) (-51) _ 7074236222275828 (by norm_num) (by norm_num)
      (by norm_num) (roundHalfEven_eq _ _ (by norm_num) (by norm_num))]
    norm_num
  rw [hd]
  unfold toFloat floatPI
  rw [roundBinary_eval_pos 24 (-149) (-22) _ 13176792 (by norm_num) (by norm_num)
    (by norm_num) (roundHalfEven_eq _ _ (by norm_num) (by norm_num))]
  norm_num

/-- The second fold at `floatPI`: `PI - angle` is stored as a negative number. -/
theorem fold_PI_floatPI :
    toFloat (toDouble (PI_double - floatPI)) = -(7249905 / 281474976710656) := by
  have hd : toDouble (PI_double - floatPI) = -(28999619 / 1125899906842624) := by
    unfold toDouble
    rw [PI_double_eq, floatPI]
    rw [roundBinary_eval_neg 53 (-1074) (-78) _ (-7784525950091264) (by norm_num)
      (by norm_num) (by norm_num) (roundHalfEven_eq _ _ (by norm_num) (by norm_num))]
    norm_num
  rw [hd]
  unfold toFloat
  have htie : roundHalfEven (-(28999619 / 1125899906842624) / (2 : ℚ) ^ (-49 : Int))
      = -14499810 := by
    have e : -(28999619 / 1125899906842624 : ℚ) / (2 : ℚ) ^ (-49 : Int)
        = ((-14499810 : Int) : ℚ) + 1 / 2 := by norm_num
    rw [e]
    exact roundHalfEven_tie (-14499810) (by decide)
  rw [roundBinary_eval_neg 24 (-149) (-49) _ (-14499810) (by norm_num) (by norm_num)
    (by norm_num) htie]
  norm_num

theorem angle_diff_h_floatPI : angle_diff_h 0 floatPI = -(7249905 / 281474976710656) := by
  have hgt : floatPI > PI_double := by rw [PI_double_eq, floatPI]; norm_num
  have hgt2 : floatPI > PI_double / 2 := by rw [PI_double_eq, floatPI]; norm_num
  have hpos : (0 : ℚ) < floatPI := by norm_num [floatPI]
  unfold angle_diff_h
  simp only [zero_sub, toFloat_neg_floatPI, abs_neg, abs_of_pos hpos, if_pos hgt,
    fold_two_PI_floatPI, if_pos hgt2, fold_PI_floatPI]

theorem angle_diff_v_floatPI : angle_diff_v 0 floatPI = 1647099 / 1048576 := by
  unfold angle_diff_v
  rw [angle_diff_h_floatPI]
  have hd : toDouble (PI_double / 2 - -(7249905 / 281474976710656))
      = 3537118198136773 / 2251799813685248 := by
    unfold toDouble
    rw [PI_double_eq]
    rw [roundBinary_eval_pos 53 (-1074) (-52) _ 7074236396273546 (by norm_num) (by norm_num)
      (by norm_num) (roundHalfEven_eq _ _ (by norm_num) (by norm_num))]
    norm_num
  rw [hd]
  unfold toFloat
  rw [roundBinary_eval_pos 24 (-149) (-23) _ 13176792 (by norm_num) (by norm_num)
    (by norm_num) (roundHalfEven_eq _ _ (by norm_num) (by norm_num))]
  norm_num

theorem rotation_delta_floatPI : rotation_delta floatPI 0 = -floatPI := by
  have hgt : floatPI > PI_double := by rw [PI_double_eq, floatPI]; norm_num
  have hpos : (0 : ℚ) < floatPI := by norm_num [floatPI]
  unfold rotation_delta
  simp only [sub_zero, toFloat_floatPI, abs_of_pos hpos, if_pos hgt, fold_two_PI_floatPI,
    if_neg (not_lt.2 hpos.le), if_neg (not_lt.2 hgt.le)]
  ring

/-! ### The rotation argument -/

/-- C13 (as stated, refuted): with the current pointer angle `floatPI` (the `float` that
holds `PI`, which lies in `[0, 2 * PI)`) and the last pointer angle 0, the argument passed to
`rotate_slice` is `-floatPI`: its absolute value exceeds `PI`, and its difference from
`a - b` is `-2 * floatPI`, none of `-2 * PI`, `0`, `2 * PI`. -/
theorem rotation_delta_beyond_PI :
    (0 ≤ floatPI ∧ floatPI < 2 * PI ∧ (0 : ℚ) ≤ 0 ∧ (0 : ℚ) < 2 * PI) ∧
    rotation_delta floatPI 0 = -floatPI ∧
    ¬ (|rotation_delta floatPI 0| ≤ PI) ∧
    rotation_delta floatPI 0 - (floatPI - 0) ≠ -(2 * PI) ∧
    rotation_delta floatPI 0 - (floatPI - 0) ≠ 0 ∧
    rotation_delta floatPI 0 - (floatPI - 0) ≠ 2 * PI := by
  rw [rotation_delta_floatPI]
  refine ⟨⟨?_, ?_, ?_, ?_⟩, rfl, ?_, ?_, ?_, ?_⟩ <;> norm_num [floatPI, PI, abs_of_pos]

/-- C13 (amended): for all current and last pointer angles `a` and `b` in `[0, 2 * PI)`, the
argument `angle_diff * rot_direction` that `mouseMoveEvent` passes to `rotate_slice`,
computed with the `float` stores of the source, has absolute value at most `PI + 10⁻⁶` and
differs from `a - b` by `-2 * PI`, `0` or `2 * PI` up to `10⁻⁶`. -/
theorem rotation_delta_shortest (a b : ℚ) (ha0 : 0 ≤ a) (ha : a < 2 * PI) (hb0 : 0 ≤ b)
    (hb : b < 2 * PI) :
    |rotation_delta a b| ≤ PI + 1 / 1000000 ∧
    (|rotation_delta a b - (a - b) + 2 * PI| ≤ 1 / 1000000
      ∨ |rotation_delta a b - (a - b)| ≤ 1 / 1000000
      ∨ |rotation_delta a b - (a - b) - 2 * PI| ≤ 1 / 1000000) := by
  obtain ⟨h1, h2⟩ := rotation_delta_bounds a b ha0 ha hb0 hb
  refine ⟨abs_le.2 h1, ?_⟩
  rcases h2 with h | h | h
  · exact Or.inl (abs_le.2 h)
  · exact Or.inr (Or.inl (abs_le.2 h))
  · exact Or.inr (Or.inr (abs_le.2 h))

/-- A witness of the rotation argument: current angle `floatPI`, last angle 0. -/
theorem rotation_delta_shortest_witness :
    (0 ≤ floatPI ∧ floatPI < 2 * PI ∧ (0 : ℚ) ≤ 0 ∧ (0 : ℚ) < 2 * PI) ∧
    |rotation_delta floatPI 0| ≤ PI + 1 / 1000000 ∧
    (|rotation_delta floatPI 0 - (floatPI - 0) + 2 * PI| ≤ 1 / 1000000
      ∨ |rotation_delta floatPI 0 - (floatPI - 0)| ≤ 1 / 1000000
      ∨ |rotation_delta floatPI 0 - (floatPI - 0) - 2 * PI| ≤ 1 / 1000000) :=
  ⟨⟨by norm_num [floatPI], by norm_num [floatPI, PI], le_refl 0, by norm_num [PI]⟩,
    rotation_delta_shortest floatPI 0 (by norm_num [floatPI]) (by norm_num [floatPI, PI])
      (le_refl 0) (by norm_num [PI])⟩

/-! ### The hit-test angles -/

/-- C18 (as stated, refuted): with crosshair angle 0 and pointer angle `floatPI` (the
`float` that holds `PI`, which lies in `[0, 2 * PI)`), `angle_diff_h` is negative,
`angle_diff_v` exceeds `PI / 2`, and their sum is not `PI / 2`. -/
theorem angle_folding_out_of_range :
    ((0 : ℚ) ≤ 0 ∧ (0 : ℚ) < 2 * PI ∧ 0 ≤ floatPI ∧ floatPI < 2 * PI) ∧
    angle_diff_h 0 floatPI < 0 ∧
    angle_diff_v 0 floatPI > PI / 2 ∧
    angle_diff_h 0 floatPI + angle_diff_v 0 floatPI ≠ PI / 2 := by
  rw [angle_diff_h_floatPI, angle_diff_v_floatPI]
  refine ⟨⟨?_, ?_, ?_, ?_⟩, ?_, ?_, ?_⟩ <;> norm_num [floatPI, PI]

/-- C18 (amended): for every crosshair angle and pointer angle in `[0, 2 * PI)`, the values
`angle_diff_h` and `angle_diff_v` computed in `mouseMoveEvent` with the `float` stores of the
source both lie in `[-10⁻⁶, PI / 2 + 10⁻⁶]`, add up to `PI / 2` up to `10⁻⁶`, and
`angle_diff_h` is within `10⁻⁶` of the distance from `line_angle_rad - mouse_angle_rad` to the
nearest integer multiple of `PI`. -/
theorem hit_test_angle_folding (line_angle_rad mouse_angle_rad : ℚ)
    (ht0 : 0 ≤ line_angle_rad) (ht : line_angle_rad < 2 * PI)
    (hm0 : 0 ≤ mouse_angle_rad) (hm : mouse_angle_rad < 2 * PI) :
    (-(1 / 1000000) ≤ angle_diff_h line_angle_rad mouse_angle_rad
      ∧ angle_diff_h line_angle_rad mouse_angle_rad ≤ PI / 2 + 1 / 1000000) ∧
    (-(1 / 1000000) ≤ angle_diff_v line_angle_rad mouse_angle_rad
      ∧ angle_diff_v line_angle_rad mouse_angle_rad ≤ PI / 2 + 1 / 1000000) ∧
    |angle_diff_h line_angle_rad mouse_angle_rad + angle_diff_v line_angle_rad mouse_angle_rad
      - PI / 2| ≤ 1 / 1000000 ∧
    ∃ k : Int,
      (∀ j : Int, |line_angle_rad - mouse_angle_rad - (k : ℚ) * PI|
        ≤ |line_angle_rad - mouse_angle_rad - (j : ℚ) * PI|) ∧
      |angle_diff_h line_angle_rad mouse_angle_rad
        - abs (line_angle_rad - mouse_angle_rad - (k : ℚ) * PI)| ≤ 1 / 1000000 := by
  have hPv : PI = 3141592 / 1000000 := rfl
  obtain ⟨⟨hh0, hh1⟩, hd⟩ := angle_diff_h_bounds line_angle_rad mouse_angle_rad ht0 ht hm0 hm
  obtain ⟨hPa, hPb⟩ := abs_le.1 PI_double_error
  obtain ⟨hva, hvb⟩ := abs_le.1 (toFloat_toDouble_error
    (PI_double / 2 - angle_diff_h line_angle_rad mouse_angle_rad)
    (by rw [abs_le]; constructor <;> linarith))
  have hx : |line_angle_rad - mouse_angle_rad| < 2 * PI := by
    rw [abs_lt]; constructor <;> linarith
  obtain ⟨k, hk1, hk2⟩ := exists_multiple_within_half_PI _ hx
  refine ⟨⟨by linarith, by linarith⟩, ⟨?_, ?_⟩, ?_, k, ?_, ?_⟩
  · unfold angle_diff_v; linarith
  · unfold angle_diff_v; linarith
  · unfold angle_diff_v; rw [abs_le]; constructor <;> linarith
  · exact fun j => nearest_multiple_of_PI _ _ k rfl hk1 j
  · exact hd _ (abs_nonneg _) hk1 hk2

/-- A witness of the folding: crosshair angle 0, pointer angle `floatPI`. -/
theorem hit_test_angle_folding_witness :
    ((0 : ℚ) ≤ 0 ∧ (0 : ℚ) < 2 * PI ∧ 0 ≤ floatPI ∧ floatPI < 2 * PI) ∧
    (-(1 / 1000000) ≤ angle_diff_h 0 floatPI ∧ angle_diff_h 0 floatPI ≤ PI / 2 + 1 / 1000000) ∧
    (-(1 / 1000000) ≤ angle_diff_v 0 floatPI
      ∧ angle_diff_v 0 floatPI ≤ PI / 2 + 1 / 1000000) :=
  ⟨⟨le_refl 0, by norm_num [PI], by norm_num [floatPI], by norm_num [floatPI, PI]⟩,
    (hit_test_angle_folding 0 floatPI (le_refl 0) (by norm_num [PI]) (by norm_num [floatPI])
      (by norm_num [floatPI, PI])).1,
    (hit_test_angle_folding 0 floatPI (le_refl 0) (by norm_num [PI]) (by norm_num [floatPI])
      (by norm_num [floatPI, PI])).2.1⟩

/-! ## The narrowing cast -/

theorem apply_windowing_trace (ops : DataCube D) (w : Widget D) :
    (apply_windowing ops w).trace
      = w.trace ++ (Action.windowing_info_sig w.window_level w.window_width
        :: redraw_actions w) := by
  unfold apply_windowing
  rw [set_pixmap_trace]
  simp [redraw_actions]

theorem get_slice_trace (ops : DataCube D) (w : Widget D) :
    (get_slice ops w).trace
      = w.trace ++ (Action.get_slice w.slice_type
        :: Action.windowing_info_sig w.window_level w.window_width :: redraw_actions w) := by
  unfold get_slice
  rw [apply_windowing_trace]
  simp [redraw_actions]

@[simp] theorem get_slice_slice_data (ops : DataCube D) (w : Widget D) :
    (get_slice ops w).slice_data = ops.get_slice w.data_cube w.slice_type := by
  simp [get_slice, apply_windowing]

theorem wheelEvent_trace (ops : DataCube D) (w : Widget D) (wheel_delta x y : Int)
    (hvalid : w.is_valid ≠ 0) :
    (wheelEvent ops w wheel_delta x y).trace
      = w.trace ++ (Action.move_slice w.slice_type w.slice_type
          (if wheel_delta > 0 then 1 else -1)
        :: (if (ops.move_slice w.data_cube w.slice_type w.slice_type
              (if wheel_delta > 0 then 1 else -1)).1 = 0 then []
            else Action.get_slice w.slice_type
              :: Action.windowing_info_sig w.window_level w.window_width
              :: (redraw_actions w ++ Action.line_moved_sig 3
                :: coord_actions ops
                  { w with data_cube := (ops.move_slice w.data_cube w.slice_type w.slice_type
                      (if wheel_delta > 0 then 1 else -1)).2 } x y))) := by
  unfold wheelEvent
  simp only [if_neg hvalid]
  generalize (if wheel_delta > 0 then (1 : ℚ) else -1) = st
  by_cases h0 : (ops.move_slice w.data_cube w.slice_type w.slice_type st).1 = 0
  · simp [h0]
  · simp only [if_neg h0]
    rw [emit_coord_sig_trace, log_trace, get_slice_trace]
    simp [redraw_actions, coord_actions]

/-- C12: on a valid view, for every vertical wheel delta (positive, negative or zero),
`wheelEvent` issues exactly one `move_slice` command, on the view's own axis (axis argument
`slice_type`), with step 1 if the delta is greater than 0 and step -1 otherwise; it refreshes
the slice (`get_slice`, after which the slice buffer is the collaborator's current slice) and
emits `line_moved_sig(3)` if and only if that command reports success, that is returns a
non-zero value. -/
theorem wheel_step (ops : DataCube D) (w : Widget D) (wheel_delta x y : Int)
    (hvalid : w.is_valid ≠ 0) :
    (emitted w (wheelEvent ops w wheel_delta x y)).filter Action.isMoveSlice
      = [Action.move_slice w.slice_type w.slice_type (if wheel_delta > 0 then 1 else -1)] ∧
    ((emitted w (wheelEvent ops w wheel_delta x y)).filter Action.isGetSlice
      = (if (ops.move_slice w.data_cube w.slice_type w.slice_type
            (if wheel_delta > 0 then 1 else -1)).1 ≠ 0
          then [Action.get_slice w.slice_type] else [])) ∧
    (Action.line_moved_sig 3 ∈ emitted w (wheelEvent ops w wheel_delta x y) ↔
      (ops.move_slice w.data_cube w.slice_type w.slice_type
        (if wheel_delta > 0 then 1 else -1)).1 ≠ 0) ∧
    ((ops.move_slice w.data_cube w.slice_type w.slice_type
        (if wheel_delta > 0 then 1 else -1)).1 ≠ 0 →
      (wheelEvent ops w wheel_delta x y).slice_data
        = ops.get_slice (ops.move_slice w.data_cube w.slice_type w.slice_type
            (if wheel_delta > 0 then 1 else -1)).2 w.slice_type) := by
  have htr := wheelEvent_trace ops w wheel_delta x y hvalid
  rw [emitted_append w _ _ htr]
  refine ⟨?_, ?_, ?_, ?_⟩
  · unfold redraw_actions coord_actions
    split_ifs <;> simp [Action.isMoveSlice]
  · unfold redraw_actions coord_actions
    split_ifs <;> simp_all [Action.isGetSlice]
  · unfold redraw_actions coord_actions
    split_ifs <;> simp_all
  · intro hne
    unfold wheelEvent
    simp only [if_neg hvalid, if_neg hne]
    simp

/-- A witness of the wheel step: `demoView` over `stillCube`, wheel delta -120. -/
theorem wheel_step_witness :
    demoView.is_valid ≠ 0 ∧
    (emitted demoView (wheelEvent stillCube demoView (-120) 0 0)).filter Action.isMoveSlice
      = [Action.move_slice demoView.slice_type demoView.slice_type
          (if (-120 : Int) > 0 then 1 else -1)] :=
  ⟨by decide, (wheel_step stillCube demoView (-120) 0 0 (by decide)).1⟩

theorem clamp_window_width_eq (ww dx : Int) :
    clamp_window_width ww dx = max 10 (min 4000 (ww + dx)) := by
  unfold clamp_window_width
  simp only []
  split_ifs <;> omega

theorem clamp_window_level_eq (wl dy : Int) :
    clamp_window_level wl dy = max (-1000) (min 3096 (wl + dy)) := by
  unfold clamp_window_level
  simp only []
  split_ifs <;> omega

/-- C15: on a valid view, a pointer-move with the secondary button held, the primary button
not held and no arm captured leaves `window_width` equal to the old width plus
`mouse_x - mouse_last_x` clamped to `[10, 4000]` and `window_level` equal to the old level
plus `mouse_last_y - mouse_y` clamped to `[-1000, 3096]`, where `(mouse_x, mouse_y)` is the
canvas-clamped pointer position; the displayable buffer is the windowing of the slice buffer
with the new level and width, `window_changed` is 1 and the last pointer position is
`(mouse_x, mouse_y)`. -/
theorem windowing_adjustment_step (M : Libm) (ops : DataCube D) (w : Widget D) (x y : Int)
    (b : Buttons) (hvalid : w.is_valid ≠ 0) (hleft : b.left = false) (hright : b.right = true)
    (hch : w.line_clicked_h = 0) (hcv : w.line_clicked_v = 0) :
    (mouseMoveEvent M ops w x y b).window_width
      = max 10 (min 4000 (w.window_width + (clamp_mouse_x w.slice_size x - w.mouse_last_x))) ∧
    (mouseMoveEvent M ops w x y b).window_level
      = max (-1000)
          (min 3096 (w.window_level + (w.mouse_last_y - clamp_mouse_y w.slice_size y))) ∧
    (mouseMoveEvent M ops w x y b).windowed_slice
      = w.slice_data.map (window_sample w.rescale_slope w.rescale_intercept w.pixel_min
          (mouseMoveEvent M ops w x y b).window_level
          (mouseMoveEvent M ops w x y b).window_width) ∧
    (mouseMoveEvent M ops w x y b).window_changed = 1 ∧
    (mouseMoveEvent M ops w x y b).mouse_last_x = clamp_mouse_x w.slice_size x ∧
    (mouseMoveEvent M ops w x y b).mouse_last_y = clamp_mouse_y w.slice_size y := by
  have hb : takes_windowing_branch w b = true := by
    simp [takes_windowing_branch, hvalid, hleft, hright, hch, hcv]
  have hb1 := (takes_windowing_branch_move_hover M ops w (clamp_mouse_x w.slice_size x)
    (clamp_mouse_y w.slice_size y) b).trans hb
  obtain ⟨hww, hwl, hwc⟩ := mouseMoveEvent_windowing M ops w x y b hvalid hb
  refine ⟨?_, ?_, ?_, hwc, ?_, ?_⟩
  · rw [hww, clamp_window_width_eq]
  · rw [hwl, clamp_window_level_eq]
  · rw [hww, hwl]
    unfold mouseMoveEvent
    simp only [if_neg hvalid, emit_coord_sig_frame, move_buttons_windowing _ _ _ _ _ _ _ hb1]
    simp [move_windowing, apply_windowing]
  · unfold mouseMoveEvent
    simp only [if_neg hvalid, emit_coord_sig_frame, move_buttons_windowing _ _ _ _ _ _ _ hb1]
    simp [move_windowing]
  · unfold mouseMoveEvent
    simp only [if_neg hvalid, emit_coord_sig_frame, move_buttons_windowing _ _ _ _ _ _ _ hb1]
    simp [move_windowing]

/-- A witness of the windowing step: `demoView` over `stillCube`, a secondary-button move to
`(3, 2)` from the last position `(0, 0)`. -/
theorem windowing_adjustment_step_witness :
    (demoView.is_valid ≠ 0 ∧ demoView.line_clicked_h = 0 ∧ demoView.line_clicked_v = 0) ∧
    (mouseMoveEvent coarseLibm stillCube demoView 3 2 ⟨false, true, false⟩).window_width = 353 ∧
    (mouseMoveEvent coarseLibm stillCube demoView 3 2 ⟨false, true, false⟩).window_level = 48 ∧
    (mouseMoveEvent coarseLibm stillCube demoView 3 2 ⟨false, true, false⟩).window_changed = 1 :=
  ⟨⟨by decide, rfl, rfl⟩,
    (windowing_adjustment_step coarseLibm stillCube demoView 3 2 ⟨false, true, false⟩
      (by decide) rfl rfl rfl rfl).1,
    (windowing_adjustment_step coarseLibm stillCube demoView 3 2 ⟨false, true, false⟩
      (by decide) rfl rfl rfl rfl).2.1,
    (windowing_adjustment_step coarseLibm stillCube demoView 3 2 ⟨false, true, false⟩
      (by decide) rfl rfl rfl rfl).2.2.2.1⟩

theorem leaveEvent_trace (ops : DataCube D) (w : Widget D) (hvalid : w.is_valid ≠ 0) :
    (leaveEvent ops w).trace
      = w.trace ++ (redraw_actions w ++ [Action.coord_info_sig none]) := by
  unfold leaveEvent
  simp only [if_neg hvalid]
  simp [emit_coord_sig, set_pixmap_trace, redraw_actions]

/-- C17 (amended): on a valid view, after `leaveEvent` the flags `is_line_mouseover_v`,
`is_line_mouseover_h`, `line_clicked_v` and `line_clicked_h` are all 0, the event performs one
redraw and then emits the empty cursor-info notification, and `window_changed` keeps the
value it had before the event. -/
theorem leaveEvent_resets (ops : DataCube D) (w : Widget D) (hvalid : w.is_valid ≠ 0) :
    (leaveEvent ops w).is_line_mouseover_v = 0 ∧
    (leaveEvent ops w).is_line_mouseover_h = 0 ∧
    (leaveEvent ops w).line_clicked_v = 0 ∧
    (leaveEvent ops w).line_clicked_h = 0 ∧
    (leaveEvent ops w).window_changed = w.window_changed ∧
    emitted w (leaveEvent ops w) = redraw_actions w ++ [Action.coord_info_sig none] := by
  refine ⟨?_, ?_, ?_, ?_, ?_, emitted_append w _ _ (leaveEvent_trace ops w hvalid)⟩ <;>
  · unfold leaveEvent
    simp only [if_neg hvalid]
    simp

/-- A witness of the pointer-leave: `capturedView` over `stillCube`. -/
theorem leaveEvent_resets_witness :
    capturedView.is_valid ≠ 0 ∧
    (leaveEvent stillCube capturedView).line_clicked_v = 0 ∧
    emitted capturedView (leaveEvent stillCube capturedView)
      = redraw_actions capturedView ++ [Action.coord_info_sig none] :=
  ⟨by decide, (leaveEvent_resets stillCube capturedView (by decide)).2.2.1,
    (leaveEvent_resets stillCube capturedView (by decide)).2.2.2.2.2⟩


theorem leaveEvent_window_changed (ops : DataCube D) (w : Widget D) :
    (leaveEvent ops w).window_changed = w.window_changed ∧
    (leaveEvent ops w).is_valid = w.is_valid := by
  unfold leaveEvent
  split_ifs <;> simp

/-- The state of the worked example after `set_data`, a pointer-leave, a press at `(1, 1)`
and a secondary-button move to `(1, 1)`: the view is valid and the windowing is marked
dirty. -/
theorem dragged_view_facts :
    (run coarseLibm stillCube (set_data stillCube blankView ())
      [Event.leave, Event.press 1 1, Event.move 1 1 ⟨false, true, false⟩]).is_valid = 1 ∧
    (run coarseLibm stillCube (set_data stillCube blankView ())
      [Event.leave, Event.press 1 1, Event.move 1 1 ⟨false, true, false⟩]).window_changed
      = 1 := by
  obtain ⟨hv, hvis, hch, hcv, hlx, hly, hsz, hwl, hww⟩ := pressed_view_facts
  have hvalid : (run coarseLibm stillCube (set_data stillCube blankView ())
      [Event.leave, Event.press 1 1]).is_valid ≠ 0 := by rw [hv]; decide
  have hb : takes_windowing_branch (run coarseLibm stillCube (set_data stillCube blankView ())
      [Event.leave, Event.press 1 1]) ⟨false, true, false⟩ = true := by
    simp [takes_windowing_branch, hv, hch, hcv]
  have hmove := mouseMoveEvent_windowing coarseLibm stillCube _ 1 1 ⟨false, true, false⟩
    hvalid hb
  have e3 : run coarseLibm stillCube (set_data stillCube blankView ())
      [Event.leave, Event.press 1 1, Event.move 1 1 ⟨false, true, false⟩]
      = step coarseLibm stillCube (run coarseLibm stillCube
          (set_data stillCube blankView ()) [Event.leave, Event.press 1 1])
          (Event.move 1 1 ⟨false, true, false⟩) :=
    run_snoc coarseLibm stillCube _ [Event.leave, Event.press 1 1] _
  constructor
  · rw [e3, step_is_valid, hv]
  · rw [e3]
    exact hmove.2.2

/-- C17 (as stated, refuted): after `set_data`, a pointer-leave, a press at `(1, 1)` and a
secondary-button move to `(1, 1)`, the view is valid and `window_changed` is 1; a pointer-leave
in that state leaves `window_changed` equal to 1. -/
theorem leaveEvent_keeps_window_changed :
    (run coarseLibm stillCube (set_data stillCube blankView ())
      [Event.leave, Event.press 1 1, Event.move 1 1 ⟨false, true, false⟩]).is_valid = 1 ∧
    (run coarseLibm stillCube (set_data stillCube blankView ())
      [Event.leave, Event.press 1 1, Event.move 1 1 ⟨false, true, false⟩,
        Event.leave]).window_changed = 1 := by
  refine ⟨dragged_view_facts.1, ?_⟩
  have e4 : run coarseLibm stillCube (set_data stillCube blankView ())
      [Event.leave, Event.press 1 1, Event.move 1 1 ⟨false, true, false⟩, Event.leave]
      = leaveEvent stillCube (run coarseLibm stillCube (set_data stillCube blankView ())
          [Event.leave, Event.press 1 1, Event.move 1 1 ⟨false, true, false⟩]) :=
    run_snoc coarseLibm stillCube _
      [Event.leave, Event.press 1 1, Event.move 1 1 ⟨false, true, false⟩] _
  rw [e4, (leaveEvent_window_changed stillCube _).1]
  exact dragged_view_facts.2


end SliceWidget
